import Mathlib

/-!
Shallow embedding of the admission-control, caching and batch-deduplication
engine of the email-categorization repository
(`api_rate_limiter.py` and `batch_processor.py`), together with proofs of the
behavioural properties claimed by the design specification.

Modelling conventions:
* Python `str` values are Lean `String`s; the character-level operations the
  source uses (`lower`, `replace`, `strip`, slicing, `startswith`) are defined
  below directly on the underlying character lists so that every definition is
  executable by the kernel.
* Wall-clock instants (`datetime.now()`) are modelled as integer seconds `ℤ`;
  the source's fractional seconds flow through exactly the same ordered-ring
  comparisons and subtractions, so integer instants are a faithful fragment.
* `hashlib.md5(x).hexdigest()` is modelled by the injective stand-in `md5hex`
  (the identity on strings): the source uses the digest only as a
  content-addressed key, never inspecting its characters after the `:`.
* `difflib.SequenceMatcher(...).ratio()` is an external library call; the
  similarity scorer is parameterised by the function `textSim` standing for it.
* Python exceptions are modelled by explicit result constructors (`PyRes`,
  `CallRes`); a `CallRes.excBadStr` is an exception object whose own `str()`
  raises, which is the one way control can escape the per-group handler of
  `_process_single_batch` into the batch-fatal handler (both handlers catch
  `Exception`, so only a failure raised inside the inner handler itself — the
  `str(e)` call — reaches the outer one).
* `time.sleep` durations are collected in an explicit list of sleeps where a
  claim is about them; dictionaries are insertion-ordered association lists,
  exactly like Python 3.7+ dicts.
-/

/-! ## Character-level string operations (Python `str` semantics) -/

/-- ASCII lower-casing of one character, as `str.lower` acts on the
characters appearing in this development. -/
def lowerChar (c : Char) : Char :=
  if 65 ≤ c.toNat ∧ c.toNat ≤ 90 then Char.ofNat (c.toNat + 32) else c

/-- Python `s.lower()`. -/
def strLower (s : String) : String := String.mk (s.data.map lowerChar)

/-- Split a character list at the first occurrence of `pat`:
returns the part before the occurrence and the part after it. -/
def splitAtPattern (pat : List Char) : List Char → Option (List Char × List Char)
  | [] => none
  | c :: rest =>
    if List.isPrefixOf pat (c :: rest) then some ([], List.drop pat.length (c :: rest))
    else
      match splitAtPattern pat rest with
      | some (pre, post) => some (c :: pre, post)
      | none => none

/-- Fuel-bounded left-to-right replacement of every non-overlapping
occurrence of `pat`. -/
def replaceFuel (pat rep : List Char) : Nat → List Char → List Char
  | 0, s => s
  | fuel + 1, s =>
    match splitAtPattern pat s with
    | none => s
    | some (pre, post) => pre ++ rep ++ replaceFuel pat rep fuel post

/-- Python `s.replace(pat, rep)` for a non-empty `pat`: every non-overlapping
occurrence, scanned left to right. -/
def strReplace (s pat rep : String) : String :=
  String.mk (replaceFuel pat.data rep.data (s.data.length + 1) s.data)

/-- Whitespace, as stripped by Python `str.strip()` on the inputs of this
development. -/
def isSpaceChar (c : Char) : Bool :=
  c == ' ' || c == '\t' || c == '\n' || c == '\r'

/-- Python `s.strip()`. -/
def strTrim (s : String) : String :=
  String.mk (((s.data.dropWhile isSpaceChar).reverse.dropWhile isSpaceChar).reverse)

/-- Python slice `s[:n]`. -/
def strTake (s : String) (n : Nat) : String := String.mk (s.data.take n)

/-- Python `s.startswith(p)`. -/
def strStartsWith (s p : String) : Bool := List.isPrefixOf p.data s.data

/-- Python `len(s)` (code points). -/
def strLen (s : String) : Nat := s.data.length

/-! ## Insertion-ordered dictionaries (Python `dict`) -/

/-- `d[k] = v` on an insertion-ordered association list: overwrites in place,
or appends a new binding at the end, exactly like a Python dict. -/
def aset {α : Type} : List (String × α) → String → α → List (String × α)
  | [], k, v => [(k, v)]
  | (k₀, v₀) :: rest, k, v =>
    if k₀ = k then (k, v) :: rest else (k₀, v₀) :: aset rest k v

/-! ## `api_rate_limiter.py` — data model -/

/-- `RateLimit` dataclass. -/
structure RateLimit where
  requests_per_minute : Nat
  requests_per_hour : Nat
  requests_per_day : Nat
  burst_size : Nat := 5
deriving DecidableEq

/-- One entry of `request_history`: the three per-window timestamp deques. -/
structure RequestHistory where
  minute : List ℤ
  hour : List ℤ
  day : List ℤ
deriving DecidableEq

/-- The deques a fresh `defaultdict` entry starts from. -/
def emptyHistory : RequestHistory := ⟨[], [], []⟩

/-- One entry of `usage_stats`. -/
structure UsageStats where
  total_requests : Nat
  cached_responses : Nat
  rate_limited : Nat
  errors : Nat
  last_request : Option ℤ
deriving DecidableEq

/-- The counters a fresh `defaultdict` entry starts from. -/
def emptyStats : UsageStats := ⟨0, 0, 0, 0, none⟩

/-- An HTTP response object (`hasattr(response, "status_code")` holds):
status code, optional parsed `Retry-After` header, body text. -/
structure HTTPResponse where
  status_code : Nat
  retry_after : Option Nat
  text : String
deriving DecidableEq

/-- What a `request_func` call can hand back when it returns normally: an
object carrying `status_code`, or any other object (opaque payload). -/
inductive ApiResult
  | resp (r : HTTPResponse)
  | plain (n : Nat)
deriving DecidableEq

/-- One attempt of the supplied zero-argument call: a normal return or a
raised exception, indexed by the attempt number. -/
inductive AttemptOutcome
  | ok (v : ApiResult)
  | exn (msg : String)
deriving DecidableEq

/-- Normal return or propagated Python exception. -/
inductive PyRes (α : Type)
  | ok (v : α)
  | raised (msg : String)
deriving DecidableEq

/-- One entry of the response cache: `{"data": ..., "timestamp": ...}`. -/
structure CacheItem where
  data : ApiResult
  timestamp : ℤ
deriving DecidableEq

/-- `APIResponse` dataclass. -/
structure APIResponse where
  data : ApiResult
  cached : Bool
  timestamp : ℤ
  cache_key : String
deriving DecidableEq

/-- The mutable state of one `APIRateLimiter` object. -/
structure LimiterState where
  rate_limits : List (String × RateLimit)
  request_history : List (String × RequestHistory)
  cache : List (String × CacheItem)
  cache_ttl : List (String × ℤ)
  usage_stats : List (String × UsageStats)
deriving DecidableEq

/-- Reading `request_history[api_name]` (a `defaultdict`: a missing key reads
as the empty history). -/
def histOf (st : LimiterState) (api_name : String) : RequestHistory :=
  (List.lookup api_name st.request_history).getD emptyHistory

/-- Reading `usage_stats[api_name]` (a `defaultdict`: a missing key reads as
zero counters). -/
def statsOf (st : LimiterState) (api_name : String) : UsageStats :=
  (List.lookup api_name st.usage_stats).getD emptyStats

/-- `self.cache_ttl.get(operation, 3600)`. -/
def ttlOf (st : LimiterState) (operation : String) : ℤ :=
  (List.lookup operation st.cache_ttl).getD 3600

/-- The state built by `APIRateLimiter.__init__`. -/
def initState : LimiterState :=
  { rate_limits := [("huggingface", ⟨30, 1000, 10000, 5⟩), ("openai", ⟨20, 500, 5000, 3⟩)],
    request_history := [],
    cache := [],
    cache_ttl := [("sentiment", 3600), ("categorization", 1800)],
    usage_stats := [] }

/-! ## `api_rate_limiter.py` — operations -/

/-- `_clean_old_requests`: pop stale timestamps from the front of each window
deque (keep the last 60 / 3600 / 86400 seconds). -/
def clean_old_requests (h : RequestHistory) (now : ℤ) : RequestHistory :=
  ⟨h.minute.dropWhile (fun t => decide (60 < now - t)),
   h.hour.dropWhile (fun t => decide (3600 < now - t)),
   h.day.dropWhile (fun t => decide (86400 < now - t))⟩

/-- One window stanza of `_check_rate_limit`: if the window's count has
reached `limit`, the wait is `period` minus the time elapsed since the
window's oldest entry, reported only when positive.  (With a zero limit and
an empty window the source would raise `IndexError` on `deque[0]`; that dead
corner is modelled as not binding.) -/
def window_check (limit : Nat) (window : List ℤ) (period now : ℤ) : Option ℤ :=
  if limit ≤ window.length then
    match window.head? with
    | some oldest =>
      let wait_time := period - (now - oldest)
      if 0 < wait_time then some wait_time else none
    | none => none
  else none

/-- `_check_rate_limit`: unknown services are never limited; otherwise the
minute window is consulted first, the hour window only if the minute window
does not bind, and the day window only if neither earlier window binds. -/
def check_rate_limit (rate_limits : List (String × RateLimit)) (history : RequestHistory)
    (api_name : String) (now : ℤ) : Option ℤ :=
  match List.lookup api_name rate_limits with
  | none => none
  | some rate_limit =>
    match window_check rate_limit.requests_per_minute history.minute 60 now with
    | some w => some w
    | none =>
      match window_check rate_limit.requests_per_hour history.hour 3600 now with
      | some w => some w
      | none => window_check rate_limit.requests_per_day history.day 86400 now

/-- Stand-in for `hashlib.md5(content.encode()).hexdigest()`: an injective
content hash (the digest is only ever used as an opaque key component). -/
def md5hex (s : String) : String := s

/-- `_generate_cache_key`. -/
def generate_cache_key (content operation : String) : String :=
  operation ++ ":" ++ md5hex content

/-- `_get_cached_response`: absent on a miss; on an expired entry the entry
is deleted and the result is absent; otherwise the stored value.  Returns the
(possibly pruned) cache alongside the lookup result. -/
def get_cached_response (cache : List (String × CacheItem)) (ttls : List (String × ℤ))
    (cache_key operation : String) (now : ℤ) : Option ApiResult × List (String × CacheItem) :=
  match List.lookup cache_key cache with
  | none => (none, cache)
  | some item =>
    let ttl := (List.lookup operation ttls).getD 3600
    if ttl < now - item.timestamp then (none, cache.filter (fun kv => kv.1 != cache_key))
    else (some item.data, cache)

/-- `_make_request_with_backoff`'s retry loop, structurally recursing on the
number of attempts still allowed (`fuel`); `attempt` is the 0-based index of
the attempt about to run, and `sleeps` accumulates every `time.sleep`
duration in order.  `fuel = 0` after the loop raises the final failure. -/
def backoffLoop (request_func : Nat → AttemptOutcome) :
    Nat → Nat → List ℤ → PyRes ApiResult × List ℤ
  | _attempt, 0, sleeps =>
    (PyRes.raised "Request failed after max_retries attempts", sleeps)
  | attempt, fuel + 1, sleeps =>
    match request_func attempt with
    | AttemptOutcome.exn e =>
      if fuel = 0 then (PyRes.raised e, sleeps)
      else backoffLoop request_func (attempt + 1) fuel (sleeps ++ [(2 : ℤ) ^ attempt])
    | AttemptOutcome.ok v =>
      match v with
      | ApiResult.plain n => (PyRes.ok (ApiResult.plain n), sleeps)
      | ApiResult.resp r =>
        if r.status_code = 429 then
          let wait_time : ℤ :=
            match r.retry_after with
            | some n => (n : ℤ)
            | none => 2 ^ attempt * 5
          backoffLoop request_func (attempt + 1) fuel (sleeps ++ [wait_time])
        else if r.status_code = 200 then (PyRes.ok (ApiResult.resp r), sleeps)
        else if fuel = 0 then (PyRes.ok (ApiResult.resp r), sleeps)
        else backoffLoop request_func (attempt + 1) fuel (sleeps ++ [(2 : ℤ) ^ attempt])

/-- `_make_request_with_backoff(request_func, max_retries)`: result plus the
list of sleeps taken. -/
def make_request_with_backoff (request_func : Nat → AttemptOutcome) (max_retries : Nat) :
    PyRes ApiResult × List ℤ :=
  backoffLoop request_func 0 max_retries []

/-- `throttled_request`: cache check; on a miss prune, admission-check,
record, execute through the backoff loop, and cache the result; on an
exception escaping execution, count the error and propagate.  The single
instant `now` stands for the wall clock during the call. -/
def throttled_request (st : LimiterState) (api_name operation content : String)
    (request_func : Nat → AttemptOutcome) (now : ℤ) :
    PyRes APIResponse × LimiterState :=
  let cache_key := generate_cache_key content operation
  let looked := get_cached_response st.cache st.cache_ttl cache_key operation now
  match looked.1 with
  | some cached_data =>
    let stats := statsOf st api_name
    (PyRes.ok ⟨cached_data, true, now, cache_key⟩,
     { st with cache := looked.2,
               usage_stats := aset st.usage_stats api_name
                 { stats with cached_responses := stats.cached_responses + 1 } })
  | none =>
    let hist := clean_old_requests (histOf st api_name) now
    let wait := check_rate_limit st.rate_limits hist api_name now
    let stats := statsOf st api_name
    let stats :=
      match wait with
      | some _ => { stats with rate_limited := stats.rate_limited + 1 }
      | none => stats
    let hist : RequestHistory := ⟨hist.minute ++ [now], hist.hour ++ [now], hist.day ++ [now]⟩
    let stats : UsageStats :=
      { stats with total_requests := stats.total_requests + 1, last_request := some now }
    let st₁ : LimiterState :=
      { st with cache := looked.2,
                request_history := aset st.request_history api_name hist,
                usage_stats := aset st.usage_stats api_name stats }
    match (make_request_with_backoff request_func 3).1 with
    | PyRes.ok response =>
      (PyRes.ok ⟨response, false, now, cache_key⟩,
       { st₁ with cache := aset st₁.cache cache_key ⟨response, now⟩ })
    | PyRes.raised e =>
      let stats₂ : UsageStats := { stats with errors := stats.errors + 1 }
      (PyRes.raised e, { st₁ with usage_stats := aset st₁.usage_stats api_name stats₂ })

/-- The per-service cache hit rate computed by `get_usage_stats`:
`cached_responses / total_requests * 100` when any request was recorded,
else 0. -/
def reported_hit_rate (st : LimiterState) (api_name : String) : ℚ :=
  let s := statsOf st api_name
  if 0 < s.total_requests then ((s.cached_responses : ℚ) / (s.total_requests : ℚ)) * 100
  else 0

/-- Python truthiness of the optional `clear_cache` argument: `None` and the
empty string are falsy. -/
def truthyArg : Option String → Bool
  | none => false
  | some s => s != ""

/-- `clear_cache(operation)`: with a truthy argument, delete exactly the keys
that start with the argument followed by a colon; otherwise clear all. -/
def clear_cache (cache : List (String × CacheItem)) (operation : Option String) :
    List (String × CacheItem) :=
  if truthyArg operation then
    cache.filter (fun kv => !(strStartsWith kv.1 ((operation.getD "") ++ ":")))
  else []

/-! ## `batch_processor.py` — data model -/

/-- An email dictionary, with the fields the batch processor reads.  The
source key `from` is a Lean keyword and is embedded as `sender`. -/
structure Email where
  sender : String
  subject : String
  content : String
  text_content : Option String := none
  has_html : Bool := false
  attachments : List String := []
  html_content : Option String := none
deriving DecidableEq

/-- Outcome of one call to a supplied `sentiment_func` / `categorize_func`:
a normal return; an exception whose `str()` yields `msg` (caught by the
per-group handler); or an exception whose own `str()` raises a further
exception with message `msg` — the per-group handler's `error_msg = str(e)`
then re-raises into the batch-fatal handler. -/
inductive CallRes (α : Type)
  | ok (v : α)
  | exc (msg : String)
  | excBadStr (msg : String)
deriving DecidableEq

/-- One entry of a batch's `results` list (`processing_time`, a wall-clock
float, is omitted). -/
structure EmailResult where
  email : Email
  sentiment : String
  category : String
  cached_result : Bool := false
  error : Option String := none
deriving DecidableEq

/-- One entry of a batch's structured `errors` list. -/
structure BatchError where
  email_subject : String
  email_from : String
  error : String
deriving DecidableEq

/-- `BatchResult` dataclass (`batch_id` and `processing_time`, both derived
from the wall clock, are omitted). -/
structure BatchResult where
  success_count : ℤ
  error_count : Nat
  total_count : Nat
  api_calls_saved : Nat
  errors : List BatchError
deriving DecidableEq

/-- What `_process_single_batch` leaves on the `EmailBatch` object. -/
structure BatchOutcome where
  processing_status : String
  results : List EmailResult
  errors : List BatchError
  api_calls_saved : Nat
deriving DecidableEq

/-! ## `batch_processor.py` — similarity grouping -/

/-- `EmailSimilarityGrouper._calculate_similarity`.  `textSim` stands for
`difflib.SequenceMatcher(None, a, b).ratio()`; the text representations are
lower-cased before it is applied, exactly as in the source. -/
def calculate_similarity (textSim : String → String → ℚ) (email1 email2 : Email) : ℚ :=
  let text1 := email1.sender ++ " " ++ email1.subject ++ " " ++ strTake email1.content 200
  let text2 := email2.sender ++ " " ++ email2.subject ++ " " ++ strTake email2.content 200
  let similarity := textSim (strLower text1) (strLower text2)
  let similarity :=
    if strLower email1.sender = strLower email2.sender then similarity + 1/10 else similarity
  let subject1 := strLower email1.subject
  let subject2 := strLower email2.subject
  let similarity :=
    if subject1 ≠ "" ∧ subject2 ≠ "" then
      let clean_subject1 := strTrim (strReplace (strReplace (strReplace subject1 "re:" "") "fwd:" "") "fw:" "")
      let clean_subject2 := strTrim (strReplace (strReplace (strReplace subject2 "re:" "") "fwd:" "") "fw:" "")
      if clean_subject1 = clean_subject2 then similarity + 1/5 else similarity
    else similarity
  let len1 := strLen email1.content
  let len2 := strLen email2.content
  let similarity :=
    if 0 < len1 ∧ 0 < len2 then
      let length_similarity : ℚ := 1 - |((len1 : ℚ) - (len2 : ℚ))| / ((max len1 len2 : Nat) : ℚ)
      if 4/5 < length_similarity then similarity + 1/10 else similarity
    else similarity
  min similarity 1

/-- The anchor-scan loop of `group_emails` over the enumerated email list:
the first unclaimed index opens a group, and every later unclaimed index
joins it exactly when its similarity to the anchor reaches the threshold. -/
def group_go (textSim : String → String → ℚ) (threshold : ℚ) :
    List (Nat × Email) → List Nat → List (List Email)
  | [], _ => []
  | (i, email) :: rest, used =>
    if used.contains i then group_go textSim threshold rest used
    else
      let similar := rest.filter (fun je =>
        !(used.contains je.1) && decide (threshold ≤ calculate_similarity textSim email je.2))
      (email :: similar.map (fun je => je.2)) ::
        group_go textSim threshold rest (used ++ i :: similar.map (fun je => je.1))

/-- `EmailSimilarityGrouper.group_emails`. -/
def group_emails (textSim : String → String → ℚ) (threshold : ℚ) (emails : List Email) :
    List (List Email) :=
  if emails.length ≤ 1 then if emails.isEmpty then [] else [emails]
  else group_go textSim threshold emails.enum []

/-! ## `batch_processor.py` — batch building -/

/-- The packing loop of `_create_batches` (batch identifiers and creation
instants, both derived from the wall clock, are omitted): close the current
batch first when appending the next group would exceed `batch_size`, append
the whole group, and close the batch as soon as it reaches capacity. -/
def create_go (batch_size : Nat) :
    List (List Email) → List Email → List (List Email) → List (List Email)
  | [], current, batches => if current.isEmpty then batches else batches ++ [current]
  | group :: groups, current, batches =>
    let closes := !current.isEmpty && decide (batch_size < current.length + group.length)
    let batches := if closes then batches ++ [current] else batches
    let current := (if closes then [] else current) ++ group
    if batch_size ≤ current.length then create_go batch_size groups [] (batches ++ [current])
    else create_go batch_size groups current batches

/-- `_create_batches` applied to already-formed similarity groups. -/
def build_batches (batch_size : Nat) (groups : List (List Email)) : List (List Email) :=
  create_go batch_size groups [] []

/-- `_create_batches` end to end: group by similarity, then pack. -/
def create_batches (textSim : String → String → ℚ) (threshold : ℚ) (batch_size : Nat)
    (emails : List Email) : List (List Email) :=
  build_batches batch_size (group_emails textSim threshold emails)

/-! ## `batch_processor.py` — single-batch processing -/

/-- The exact-match key `f"{from}|{subject}|{content[:100]}"`. -/
def content_key (e : Email) : String :=
  e.sender ++ "|" ++ e.subject ++ "|" ++ strTake e.content 100

/-- Append an email to its hash group, creating the group at the end on a
new hash (Python `defaultdict(list)` under insertion-ordered keys). -/
def addToGroups (gs : List (String × List Email)) (k : String) (e : Email) :
    List (String × List Email) :=
  match gs with
  | [] => [(k, [e])]
  | (k₀, es) :: rest =>
    if k₀ = k then (k₀, es ++ [e]) :: rest else (k₀, es) :: addToGroups rest k e

/-- The `content_groups` dictionary of `_process_single_batch`. -/
def content_groups (emails : List Email) : List (String × List Email) :=
  emails.foldl (fun gs e => addToGroups gs (md5hex (content_key e)) e) []

/-- `text_content or content`: Python `or` falls through on `None` and on
the empty string. -/
def sentiment_text (e : Email) : String :=
  match e.text_content with
  | some t => if t = "" then e.content else t
  | none => e.content

/-- The `enhanced_email_data` dictionary built for the categorize call. -/
structure EnhancedEmail where
  sender : String
  subject : String
  content : String
  has_html : Bool
  attachments_count : Nat
  text_content : String
  html_content : String
deriving DecidableEq

/-- Build `enhanced_email_data` from the representative email. -/
def enhance (e : Email) : EnhancedEmail :=
  ⟨e.sender, e.subject, e.content, e.has_html, e.attachments.length,
   e.text_content.getD "", e.html_content.getD ""⟩

/-- The fallback result synthesised for an email on a failure path. -/
def fallback_result (e : Email) (msg : String) : EmailResult :=
  { email := e, sentiment := "NEUTRAL", category := "General Inquiries", error := some msg }

/-- The structured error entry recorded for an email. -/
def group_error (e : Email) (msg : String) : BatchError :=
  ⟨e.subject, e.sender, msg⟩

/-- What processing one exact-match group produces: results and a saved-call
count on success; per-member errors and fallbacks when the per-group handler
catches the exception; or a batch-fatal escape when the caught exception's
`str()` itself raises. -/
inductive GroupStep
  | ok (results : List EmailResult) (saved : Nat)
  | failedGrp (errors : List BatchError) (results : List EmailResult)
  | fatal (msg : String)
deriving DecidableEq

/-- Process one exact-match group: call `sentiment_func` then
`categorize_func` once on the first member, copy the pair to every member,
and count `(size - 1) * 2` saved calls for a shared result. -/
def process_group (sentiment_func : String → CallRes String)
    (categorize_func : EnhancedEmail → String → CallRes String)
    (email_group : List Email) : GroupStep :=
  match email_group with
  | [] => GroupStep.ok [] 0
  | representative :: _ =>
    match sentiment_func (sentiment_text representative) with
    | CallRes.excBadStr m => GroupStep.fatal m
    | CallRes.exc m =>
      GroupStep.failedGrp (email_group.map (fun e => group_error e m))
        (email_group.map (fun e => fallback_result e m))
    | CallRes.ok sentiment =>
      match categorize_func (enhance representative) sentiment with
      | CallRes.excBadStr m => GroupStep.fatal m
      | CallRes.exc m =>
        GroupStep.failedGrp (email_group.map (fun e => group_error e m))
          (email_group.map (fun e => fallback_result e m))
      | CallRes.ok category =>
        GroupStep.ok
          (email_group.map (fun e =>
            { email := e, sentiment := sentiment, category := category,
              cached_result := 1 < email_group.length }))
          (if 1 < email_group.length then (email_group.length - 1) * 2 else 0)

/-- Accumulated state of the group loop in `_process_single_batch`. -/
structure RunAcc where
  results : List EmailResult
  errors : List BatchError
  saved : Nat
  fatal : Option String
deriving DecidableEq

/-- The group loop: process groups in order, accumulating results, errors
and saved calls; a batch-fatal escape stops the loop and carries its
message. -/
def run_groups (sentiment_func : String → CallRes String)
    (categorize_func : EnhancedEmail → String → CallRes String) :
    List (String × List Email) → List EmailResult → List BatchError → Nat → RunAcc
  | [], results, errors, saved => ⟨results, errors, saved, none⟩
  | (_, email_group) :: rest, results, errors, saved =>
    match process_group sentiment_func categorize_func email_group with
    | GroupStep.ok rs sv => run_groups sentiment_func categorize_func rest (results ++ rs) errors (saved + sv)
    | GroupStep.failedGrp errs rs =>
      run_groups sentiment_func categorize_func rest (results ++ rs) (errors ++ errs) saved
    | GroupStep.fatal msg => ⟨results, errors, saved, some msg⟩

/-- `_process_single_batch` (timing fields omitted): on a batch-fatal escape
the batch is marked failed and EVERY email of the batch — including any
already given a result — receives a fallback result and an error entry. -/
def process_single_batch (sentiment_func : String → CallRes String)
    (categorize_func : EnhancedEmail → String → CallRes String)
    (emails : List Email) : BatchOutcome × BatchResult :=
  let acc := run_groups sentiment_func categorize_func (content_groups emails) [] [] 0
  match acc.fatal with
  | none =>
    (⟨"completed", acc.results, acc.errors, acc.saved⟩,
     { success_count := (acc.results.length : ℤ) - (acc.errors.length : ℤ),
       error_count := acc.errors.length,
       total_count := emails.length,
       api_calls_saved := acc.saved,
       errors := acc.errors })
  | some msg =>
    let errors := acc.errors ++ emails.map (fun e => group_error e msg)
    let results := acc.results ++ emails.map (fun e => fallback_result e msg)
    (⟨"failed", results, errors, acc.saved⟩,
     { success_count := (results.length : ℤ) - (errors.length : ℤ),
       error_count := errors.length,
       total_count := emails.length,
       api_calls_saved := acc.saved,
       errors := errors })

/-- Sequential model of `process_emails_batch`'s worker pool: each batch is
processed independently of every other. -/
def process_batches (sentiment_func : String → CallRes String)
    (categorize_func : EnhancedEmail → String → CallRes String)
    (batches : List (List Email)) : List (BatchOutcome × BatchResult) :=
  batches.map (process_single_batch sentiment_func categorize_func)

/-- Does processing this group succeed (both representative calls return
normally)? -/
def group_ok (sentiment_func : String → CallRes String)
    (categorize_func : EnhancedEmail → String → CallRes String)
    (email_group : List Email) : Bool :=
  match email_group with
  | [] => true
  | representative :: _ =>
    match sentiment_func (sentiment_text representative) with
    | CallRes.ok sentiment =>
      match categorize_func (enhance representative) sentiment with
      | CallRes.ok _ => true
      | _ => false
    | _ => false

/-- The exact-match groups the loop actually reaches before any batch-fatal
escape. -/
def attempted_groups (sentiment_func : String → CallRes String)
    (categorize_func : EnhancedEmail → String → CallRes String) :
    List (String × List Email) → List (String × List Email)
  | [] => []
  | (k, email_group) :: rest =>
    match process_group sentiment_func categorize_func email_group with
    | GroupStep.fatal _ => []
    | _ => (k, email_group) :: attempted_groups sentiment_func categorize_func rest

/-! ## Definitions following the specification's words (for refinement
comparisons only; everything above is translated from the source) -/

/-- Strip the reply/forward markers from the FRONT of a subject, repeatedly,
with surrounding whitespace trimmed (fuel-bounded scan). -/
def stripLeadFuel : Nat → List Char → List Char
  | 0, s => s
  | fuel + 1, s =>
    let s := (strTrim (String.mk s)).data
    if List.isPrefixOf "fwd:".data s then stripLeadFuel fuel (s.drop 4)
    else if List.isPrefixOf "re:".data s then stripLeadFuel fuel (s.drop 3)
    else if List.isPrefixOf "fw:".data s then stripLeadFuel fuel (s.drop 3)
    else s

/-- Modelled from the spec: claim C5 describes the subject normalisation as
"stripping leading reply/forward markers", i.e. removing the markers only at
the front of the subject. -/
def strip_leading_markers (s : String) : String :=
  String.mk (stripLeadFuel s.data.length s.data)

/-- Modelled from the spec: the similarity score as claim C5 words it — the
same additive boosts as the source, but with the subject boost granted when
the subjects agree after stripping only LEADING markers. -/
def spec_similarity (textSim : String → String → ℚ) (email1 email2 : Email) : ℚ :=
  let text1 := email1.sender ++ " " ++ email1.subject ++ " " ++ strTake email1.content 200
  let text2 := email2.sender ++ " " ++ email2.subject ++ " " ++ strTake email2.content 200
  let similarity := textSim (strLower text1) (strLower text2)
  let similarity :=
    if strLower email1.sender = strLower email2.sender then similarity + 1/10 else similarity
  let subject1 := strLower email1.subject
  let subject2 := strLower email2.subject
  let similarity :=
    if subject1 ≠ "" ∧ subject2 ≠ "" then
      if strip_leading_markers subject1 = strip_leading_markers subject2 then similarity + 1/5
      else similarity
    else similarity
  let len1 := strLen email1.content
  let len2 := strLen email2.content
  let similarity :=
    if 0 < len1 ∧ 0 < len2 then
      let length_similarity : ℚ := 1 - |((len1 : ℚ) - (len2 : ℚ))| / ((max len1 len2 : Nat) : ℚ)
      if 4/5 < length_similarity then similarity + 1/10 else similarity
    else similarity
  min similarity 1

/-- The operation component of a cache key: the part before the first
colon. -/
def operation_component (key : String) : String :=
  String.mk (key.data.takeWhile (fun c => c != ':'))

/-- Modelled from the spec: claim C7 words `clear_cache(p)` as removing the
keys "whose operation component matches the given prefix", i.e. those whose
operation component starts with `p`. -/
def spec_clear (cache : List (String × CacheItem)) (operation : Option String) :
    List (String × CacheItem) :=
  match operation with
  | none => []
  | some p => cache.filter (fun kv => !(strStartsWith (operation_component kv.1) p))

/-! ## Concrete inputs used by witnesses and counterexamples -/

/-- An email whose sender, subject and body are all the given string. -/
def wEmail (s : String) : Email := { sender := s, subject := s, content := s }

/-- A text-similarity stand-in that always scores 0. -/
def textSim0 : String → String → ℚ := fun _ _ => 0

/-- A text-similarity stand-in that always scores 0.35 (scenario D's raw
ratio). -/
def textSim35 : String → String → ℚ := fun _ _ => 7/20

/-- A request function that always returns a plain (status-code-free)
payload. -/
def reqPlain : Nat → AttemptOutcome := fun _ => AttemptOutcome.ok (ApiResult.plain 7)

/-- A request function whose first attempt is a 429 carrying a 2-second
`Retry-After` hint and whose second attempt succeeds (scenario C). -/
def req429then200 : Nat → AttemptOutcome := fun attempt =>
  if attempt = 0 then AttemptOutcome.ok (ApiResult.resp ⟨429, some 2, ""⟩)
  else AttemptOutcome.ok (ApiResult.resp ⟨200, none, ""⟩)

/-- A request function that never answers (used to show the cached path
performs no execution). -/
def reqNever : Nat → AttemptOutcome := fun _ => AttemptOutcome.exn "should not execute"

/-- The limiter state after one cache-missing call and two cache hits for
the same (service, operation, content) triple. -/
def demoState : LimiterState :=
  (throttled_request
    ((throttled_request
      ((throttled_request initState "huggingface" "sentiment" "hello" reqPlain 0).2)
      "huggingface" "sentiment" "hello" reqPlain 0).2)
    "huggingface" "sentiment" "hello" reqPlain 0).2

/-- A sentiment function that always raises an (ordinarily caught)
exception. -/
def sfRaise : String → CallRes String := fun _ => CallRes.exc "boom"

/-- A sentiment function that succeeds on the text "a" and otherwise raises
an exception whose `str()` itself raises (batch-fatal trigger). -/
def sfFatalOnB : String → CallRes String := fun t =>
  if t = "a" then CallRes.ok "POSITIVE" else CallRes.excBadStr "kaboom"

/-- A categorize function that always succeeds. -/
def cfConst : EnhancedEmail → String → CallRes String :=
  fun _ _ => CallRes.ok "General Inquiries"

/-- The limiter-state update performed by a cache hit: only the service's
cache-hit counter moves. -/
def bump_cached (st : LimiterState) (api_name : String) : LimiterState :=
  let stats := statsOf st api_name
  let stats₂ : UsageStats := { stats with cached_responses := stats.cached_responses + 1 }
  { st with usage_stats := aset st.usage_stats api_name stats₂ }

/-! ## Derived inputs used by witnesses -/

/-- The limiter state after one successful cache-missing call for
("huggingface", "sentiment", "hello"). -/
def oneCallState : LimiterState :=
  (throttled_request initState "huggingface" "sentiment" "hello" reqPlain 0).2

/-- Counterexample email for claim C5: its subject contains "re:" in the
middle of a word ("store:"), not as a leading marker. -/
def cexEmailA : Email := { sender := "a@x", subject := "store: news", content := "abc" }
/-- Counterexample email for claim C5: the subject the source-level cleaning
produces from `cexEmailA`. -/
def cexEmailB : Email := { sender := "b@x", subject := "sto news", content := "abc" }
/-- Scenario D email: subject carries a leading reply marker. -/
def scnEmailA : Email := { sender := "alice@x", subject := "Re: X", content := "hello world" }
/-- Scenario D email: same sender and body as `scnEmailA`, bare subject. -/
def scnEmailB : Email := { sender := "alice@x", subject := "X", content := "hello world" }

/-- The packing loop of `_create_batches` re-expressed at the granularity of
whole similarity groups: it carries the list of groups of the open batch
(`cur`) and the list of per-batch group lists built so far, and mirrors
`create_go` step for step (used only to state and prove the segmentation
property of claim C8). -/
def seg_go (batch_size : Nat) :
    List (List Email) → List (List Email) → List (List (List Email)) → List (List (List Email))
  | [], cur, acc => if cur.flatten.isEmpty then acc else acc ++ [cur]
  | group :: groups, cur, acc =>
    let closes := !cur.flatten.isEmpty && decide (batch_size < cur.flatten.length + group.length)
    let acc := if closes then acc ++ [cur] else acc
    let cur := (if closes then [] else cur) ++ [group]
    if batch_size ≤ cur.flatten.length then seg_go batch_size groups [] (acc ++ [cur])
    else seg_go batch_size groups cur acc

/-! ## Helper lemmas -/

theorem strBeq_false_of_ne {k₁ k : String} (h : k₁ ≠ k) : (k₁ == k) = false :=
  beq_eq_false_iff_ne.mpr h

theorem lookup_aset_self {α : Type} (l : List (String × α)) (k : String) (v : α) :
    List.lookup k (aset l k v) = some v := by
  induction l with
  | nil => simp [aset, List.lookup]
  | cons p rest ih =>
    obtain ⟨k₀, v₀⟩ := p
    by_cases h : k₀ = k
    · subst h; simp [aset, List.lookup]
    · simp only [aset, if_neg h, List.lookup]
      rw [strBeq_false_of_ne (fun hh => h hh.symm)]
      exact ih

theorem lookup_aset_ne {α : Type} (l : List (String × α)) (k k₁ : String) (v : α)
    (h : k₁ ≠ k) : List.lookup k₁ (aset l k v) = List.lookup k₁ l := by
  induction l with
  | nil => simp [aset, List.lookup, strBeq_false_of_ne h]
  | cons p rest ih =>
    obtain ⟨k₀, v₀⟩ := p
    by_cases hk : k₀ = k
    · subst hk
      simp only [aset, if_pos rfl, List.lookup, strBeq_false_of_ne h]
    · simp only [aset, if_neg hk, List.lookup]
      cases hbe : (k₁ == k₀) with
      | true => rfl
      | false => exact ih

theorem statsOf_bump_cached_self (st : LimiterState) (api_name : String) :
    statsOf (bump_cached st api_name) api_name =
      { statsOf st api_name with
          cached_responses := (statsOf st api_name).cached_responses + 1 } := by
  simp [statsOf, bump_cached, lookup_aset_self]


theorem get_hit_snd (cache : List (String × CacheItem)) (ttls : List (String × ℤ))
    (ck op : String) (now : ℤ) (v : ApiResult)
    (h : (get_cached_response cache ttls ck op now).1 = some v) :
    (get_cached_response cache ttls ck op now).2 = cache := by
  unfold get_cached_response at h ⊢
  cases hll : List.lookup ck cache with
  | none => simp at h ⊢
  | some item =>
    rw [hll] at h
    dsimp only at h ⊢
    by_cases hexp : ((List.lookup op ttls).getD 3600 < now - item.timestamp)
    · rw [if_pos hexp] at h
      exact absurd h (by simp)
    · rw [if_neg hexp]

theorem throttled_request_hit (st : LimiterState) (api_name operation content : String)
    (request_func : Nat → AttemptOutcome) (now : ℤ) (v : ApiResult)
    (h : (get_cached_response st.cache st.cache_ttl (generate_cache_key content operation)
            operation now).1 = some v) :
    throttled_request st api_name operation content request_func now =
      (PyRes.ok ⟨v, true, now, generate_cache_key content operation⟩,
       bump_cached st api_name) := by
  simp only [throttled_request]
  rw [h, get_hit_snd _ _ _ _ _ _ h]
  rfl

theorem throttled_request_caches (st : LimiterState) (api_name operation content : String)
    (request_func : Nat → AttemptOutcome) (now : ℤ) (r : APIResponse) (st₂ : LimiterState)
    (h : throttled_request st api_name operation content request_func now = (PyRes.ok r, st₂))
    (httl : 0 ≤ ttlOf st operation) :
    (get_cached_response st₂.cache st₂.cache_ttl (generate_cache_key content operation)
        operation now).1 = some r.data ∧ st₂.cache_ttl = st.cache_ttl := by
  simp only [throttled_request] at h
  cases hget : (get_cached_response st.cache st.cache_ttl (generate_cache_key content operation)
      operation now).1 with
  | some v =>
    rw [hget, get_hit_snd _ _ _ _ _ _ hget] at h
    dsimp only at h
    simp only [Prod.mk.injEq, PyRes.ok.injEq] at h
    obtain ⟨hr, hst⟩ := h
    constructor
    · have hc : st₂.cache = st.cache := by rw [← hst]
      have ht : st₂.cache_ttl = st.cache_ttl := by rw [← hst]
      rw [hc, ht, hget, ← hr]
    · rw [← hst]
  | none =>
    rw [hget] at h
    dsimp only at h
    cases hmk : (make_request_with_backoff request_func 3).1 with
    | ok response =>
      rw [hmk] at h
      simp only [Prod.mk.injEq, PyRes.ok.injEq] at h
      obtain ⟨hr, hst⟩ := h
      have hc : st₂.cache = aset (get_cached_response st.cache st.cache_ttl
          (generate_cache_key content operation) operation now).2
          (generate_cache_key content operation) ⟨response, now⟩ := by rw [← hst]
      have ht : st₂.cache_ttl = st.cache_ttl := by rw [← hst]
      constructor
      · rw [hc, ht]
        unfold get_cached_response
        rw [lookup_aset_self]
        have hlt : ¬ ((List.lookup operation st.cache_ttl).getD 3600 < now - now) := by
          simp only [sub_self]
          exact not_lt.mpr httl
        dsimp only
        rw [if_neg hlt, ← hr]
      · exact ht
    | raised e =>
      rw [hmk] at h
      simp at h


/-- Claim C3: after a successful throttled request, a second call with the same
operation, api name and text within the TTL is answered from the cache: it
returns the stored data with cached = true, increments only the
cached_responses counter of that service, and leaves total_requests, every
request history and the cache itself unchanged, for any request function. -/
theorem C3_second_call_served_from_cache
    (st : LimiterState) (api_name operation content : String)
    (f g : Nat → AttemptOutcome) (now : ℤ) (r : APIResponse) (st₂ : LimiterState)
    (h : throttled_request st api_name operation content f now = (PyRes.ok r, st₂))
    (httl : 0 ≤ ttlOf st operation) :
    throttled_request st₂ api_name operation content g now =
      (PyRes.ok ⟨r.data, true, now, generate_cache_key content operation⟩,
       bump_cached st₂ api_name)
    ∧ statsOf (bump_cached st₂ api_name) api_name =
        { statsOf st₂ api_name with
            cached_responses := (statsOf st₂ api_name).cached_responses + 1 }
    ∧ (∀ s, s ≠ api_name → statsOf (bump_cached st₂ api_name) s = statsOf st₂ s)
    ∧ (∀ s, histOf (bump_cached st₂ api_name) s = histOf st₂ s)
    ∧ (bump_cached st₂ api_name).cache = st₂.cache := by
  obtain ⟨hcached, -⟩ :=
    throttled_request_caches st api_name operation content f now r st₂ h httl
  exact ⟨throttled_request_hit st₂ api_name operation content g now r.data hcached,
         statsOf_bump_cached_self st₂ api_name,
         fun s hs => by simp [statsOf, bump_cached, lookup_aset_ne _ _ _ _ hs],
         fun s => rfl, rfl⟩

/-- Concrete instance of claim C3 on a plain 200 response at time 0. -/
theorem C3_witness :
    throttled_request oneCallState "huggingface" "sentiment" "hello" reqNever 0 =
      (PyRes.ok ⟨ApiResult.plain 7, true, 0, generate_cache_key "hello" "sentiment"⟩,
       bump_cached oneCallState "huggingface") :=
  (C3_second_call_served_from_cache initState "huggingface" "sentiment" "hello" reqPlain reqNever
    0 ⟨ApiResult.plain 7, false, 0, "sentiment:hello"⟩ oneCallState (by decide) (by decide)).1

/-- Claim C10: the reported cache hit rate is cached_responses divided by
total_requests times 100, where total_requests counts only cache-missing
admitted calls while cached_responses counts hits; hence after one miss and
two hits the reported rate is 200 percent, exceeding 100. -/
theorem C10_hit_rate_unbounded :
    (∀ st api_name, 0 < (statsOf st api_name).total_requests →
      reported_hit_rate st api_name =
        ((statsOf st api_name).cached_responses : ℚ) /
          ((statsOf st api_name).total_requests : ℚ) * 100)
    ∧ (∀ st api_name operation content f now v,
        (get_cached_response st.cache st.cache_ttl (generate_cache_key content operation)
            operation now).1 = some v →
        (statsOf (throttled_request st api_name operation content f now).2 api_name).total_requests
          = (statsOf st api_name).total_requests)
    ∧ (∀ st api_name operation content f now,
        (get_cached_response st.cache st.cache_ttl (generate_cache_key content operation)
            operation now).1 = none →
        (statsOf (throttled_request st api_name operation content f now).2 api_name).total_requests
          = (statsOf st api_name).total_requests + 1)
    ∧ reported_hit_rate demoState "huggingface" = 200
    ∧ ¬ reported_hit_rate demoState "huggingface" ≤ 100 := by
  refine ⟨?_, ?_, ?_, ?_, ?_⟩
  · intro st api_name h
    unfold reported_hit_rate
    rw [if_pos h]
  · intro st api_name operation content f now v hv
    rw [throttled_request_hit st api_name operation content f now v hv]
    rw [statsOf_bump_cached_self]
  · intro st api_name operation content f now hmiss
    simp only [throttled_request]
    rw [hmiss]
    dsimp only
    cases hmk : (make_request_with_backoff f 3).1 with
    | ok response =>
      cases hw : check_rate_limit st.rate_limits (clean_old_requests (histOf st api_name) now)
          api_name now with
      | none => dsimp only; simp [statsOf, lookup_aset_self]
      | some w => dsimp only; simp [statsOf, lookup_aset_self]
    | raised e =>
      cases hw : check_rate_limit st.rate_limits (clean_old_requests (histOf st api_name) now)
          api_name now with
      | none => dsimp only; simp [statsOf, lookup_aset_self]
      | some w => dsimp only; simp [statsOf, lookup_aset_self]
  · have hs : statsOf demoState "huggingface" = ⟨1, 2, 0, 0, some 0⟩ := by decide
    unfold reported_hit_rate
    rw [hs]
    norm_num
  · have hs : statsOf demoState "huggingface" = ⟨1, 2, 0, 0, some 0⟩ := by decide
    unfold reported_hit_rate
    rw [hs]
    norm_num

/-- Concrete instance of claim C10 with positive total on the demo state. -/
theorem C10_witness :
    reported_hit_rate demoState "huggingface" =
      ((statsOf demoState "huggingface").cached_responses : ℚ) /
        ((statsOf demoState "huggingface").total_requests : ℚ) * 100 :=
  C10_hit_rate_unbounded.1 demoState "huggingface" (by decide)

/-- Claim C1: check_rate_limit consults the minute, hour and day windows in
that order and returns the wait derived from the FIRST binding window
(window length minus the age of that window's oldest entry); a service
without a configured limit is never limited, and a later window's larger
wait is ignored once an earlier window binds. -/
theorem C1_first_binding_window :
    (∀ rate_limits history api_name (now : ℤ),
        List.lookup api_name rate_limits = none →
        check_rate_limit rate_limits history api_name now = none)
    ∧ (∀ rate_limits history api_name (now : ℤ) rl (oldest : ℤ) rest,
        List.lookup api_name rate_limits = some rl →
        history.minute = oldest :: rest →
        rl.requests_per_minute ≤ history.minute.length →
        0 < 60 - (now - oldest) →
        check_rate_limit rate_limits history api_name now = some (60 - (now - oldest)))
    ∧ (∀ rate_limits history api_name (now w : ℤ) rl,
        List.lookup api_name rate_limits = some rl →
        window_check rl.requests_per_minute history.minute 60 now = none →
        window_check rl.requests_per_hour history.hour 3600 now = some w →
        check_rate_limit rate_limits history api_name now = some w)
    ∧ (∀ rate_limits history api_name (now : ℤ) rl,
        List.lookup api_name rate_limits = some rl →
        window_check rl.requests_per_minute history.minute 60 now = none →
        window_check rl.requests_per_hour history.hour 3600 now = none →
        check_rate_limit rate_limits history api_name now =
          window_check rl.requests_per_day history.day 86400 now)
    ∧ check_rate_limit [("svc", ⟨2, 1000, 10000, 5⟩)] ⟨[0, 0], [0, 0], [0, 0]⟩ "svc" 1 = some 59
    ∧ (check_rate_limit [("svc", ⟨1, 2, 10000, 5⟩)] ⟨[2950], [0, 2950], [0, 2950]⟩ "svc" 3000 =
        some 10
       ∧ window_check 2 [0, 2950] 3600 3000 = some 600 ∧ (10 : ℤ) < 600) := by
  refine ⟨?_, ?_, ?_, ?_, by decide, by decide⟩
  · intro rate_limits history api_name now hl
    unfold check_rate_limit
    rw [hl]
  · intro rate_limits history api_name now rl oldest rest hl hm hcount hpos
    unfold check_rate_limit
    rw [hl]
    dsimp only
    have hwc : window_check rl.requests_per_minute history.minute 60 now =
        some (60 - (now - oldest)) := by
      unfold window_check
      rw [if_pos hcount, hm]
      dsimp only [List.head?]
      rw [if_pos hpos]
    rw [hwc]
  · intro rate_limits history api_name now w rl hl hm hh
    unfold check_rate_limit
    rw [hl]
    dsimp only
    rw [hm, hh]
  · intro rate_limits history api_name now rl hl hm hh
    unfold check_rate_limit
    rw [hl]
    dsimp only
    rw [hm, hh]

/-- Concrete instance of claim C1: scenario with a 2-per-minute policy and
two requests at time 0 checked at time 1 must wait 59 seconds. -/
theorem C1_witness :
    check_rate_limit [("svc", ⟨2, 1000, 10000, 5⟩)] ⟨[0, 0], [0, 0], [0, 0]⟩ "svc" 1 =
      some (60 - (1 - 0)) :=
  C1_first_binding_window.2.1 [("svc", ⟨2, 1000, 10000, 5⟩)] ⟨[0, 0], [0, 0], [0, 0]⟩ "svc" 1
    ⟨2, 1000, 10000, 5⟩ 0 [0] (by decide) rfl (by decide) (by decide)

/-- Claim C2: on an HTTP 429 the backoff loop sleeps exactly the Retry-After
hint when one is present, otherwise (2 to the attempt) times 5 seconds, and
retries as the next attempt; a 429 answered by a 200 on the second attempt
sleeps exactly once, for 2 seconds, when the hint says 2. -/
theorem C2_backoff_hint_or_exponential :
    (∀ f (attempt fuel : Nat) (sleeps : List ℤ) r n,
        f attempt = AttemptOutcome.ok (ApiResult.resp r) →
        r.status_code = 429 → r.retry_after = some n →
        backoffLoop f attempt (fuel + 1) sleeps =
          backoffLoop f (attempt + 1) fuel (sleeps ++ [(n : ℤ)]))
    ∧ (∀ f (attempt fuel : Nat) (sleeps : List ℤ) r,
        f attempt = AttemptOutcome.ok (ApiResult.resp r) →
        r.status_code = 429 → r.retry_after = none →
        backoffLoop f attempt (fuel + 1) sleeps =
          backoffLoop f (attempt + 1) fuel (sleeps ++ [5 * 2 ^ attempt]))
    ∧ make_request_with_backoff req429then200 3 =
        (PyRes.ok (ApiResult.resp ⟨200, none, ""⟩), [2]) := by
  refine ⟨?_, ?_, by decide⟩
  · intro f attempt fuel sleeps r n hf hsc hra
    conv_lhs => rw [backoffLoop]
    rw [hf]
    dsimp only
    rw [if_pos hsc, hra]
  · intro f attempt fuel sleeps r hf hsc hra
    conv_lhs => rw [backoffLoop]
    rw [hf]
    dsimp only
    rw [if_pos hsc, hra]
    rw [mul_comm ((2 : ℤ) ^ attempt) 5]

/-- Concrete instance of claim C2 at attempt 1 of 3 with hint 7. -/
theorem C2_witness :
    backoffLoop req429then200 0 3 [] = backoffLoop req429then200 1 2 ([] ++ [(2 : ℤ)]) :=
  C2_backoff_hint_or_exponential.1 req429then200 0 2 [] ⟨429, some 2, ""⟩ 2 (by decide) rfl rfl

/-- Counterexample to claim C7 as worded: clearing operation "cat" leaves a
"categorization:..." key in place although the spec's operation-component
reading would remove it, since the code tests startswith(op + ":"). -/
theorem C7_counterexample :
    strStartsWith (operation_component "categorization:x") "cat" = true ∧
    clear_cache [("categorization:x", ⟨ApiResult.plain 0, 0⟩)] (some "cat") =
      [("categorization:x", ⟨ApiResult.plain 0, 0⟩)] ∧
    spec_clear [("categorization:x", ⟨ApiResult.plain 0, 0⟩)] (some "cat") = [] := by
  decide

/-- Claim C7 (amended): clear_cache with a truthy argument removes exactly
the keys that start with the operation followed by a colon, and with an
omitted or falsy argument it removes all keys. -/
theorem C7_clear_cache_amended :
    (∀ cache (op : String) kv, op ≠ "" →
      (kv ∈ clear_cache cache (some op) ↔
        kv ∈ cache ∧ strStartsWith kv.1 (op ++ ":") = false))
    ∧ (∀ cache, clear_cache cache none = []) := by
  constructor
  · intro cache op kv hop
    have ht : truthyArg (some op) = true := by
      simp [truthyArg]
      exact hop
    simp [clear_cache, ht, List.mem_filter]
  · intro cache
    rfl

/-- Concrete instance of amended claim C7 on a two-key cache. -/
theorem C7_witness :
    ("sentiment:h", (⟨ApiResult.plain 1, 0⟩ : CacheItem)) ∈
      clear_cache [("sentiment:h", ⟨ApiResult.plain 1, 0⟩),
        ("categorization:h", ⟨ApiResult.plain 2, 0⟩)] (some "categorization") ↔
    ("sentiment:h", (⟨ApiResult.plain 1, 0⟩ : CacheItem)) ∈
      [("sentiment:h", (⟨ApiResult.plain 1, 0⟩ : CacheItem)),
        ("categorization:h", ⟨ApiResult.plain 2, 0⟩)] ∧
      strStartsWith "sentiment:h" ("categorization" ++ ":") = false :=
  C7_clear_cache_amended.1
    [("sentiment:h", ⟨ApiResult.plain 1, 0⟩), ("categorization:h", ⟨ApiResult.plain 2, 0⟩)]
    "categorization" ("sentiment:h", ⟨ApiResult.plain 1, 0⟩) (by decide)

theorem process_group_ok_shape (sf : String → CallRes String)
    (cf : EnhancedEmail → String → CallRes String) (g : List Email)
    (rs : List EmailResult) (sv : Nat) (h : process_group sf cf g = GroupStep.ok rs sv) :
    group_ok sf cf g = true ∧ sv = (g.length - 1) * 2 := by
  cases g with
  | nil =>
    simp only [process_group, GroupStep.ok.injEq] at h
    obtain ⟨-, hsv⟩ := h
    subst hsv
    exact ⟨rfl, rfl⟩
  | cons rep tail =>
    simp only [process_group] at h
    cases hsf : sf (sentiment_text rep) with
    | excBadStr m => rw [hsf] at h; simp at h
    | exc m => rw [hsf] at h; simp at h
    | ok s =>
      rw [hsf] at h
      dsimp only at h
      cases hcf : cf (enhance rep) s with
      | excBadStr m => rw [hcf] at h; simp at h
      | exc m => rw [hcf] at h; simp at h
      | ok c =>
        rw [hcf] at h
        simp only [GroupStep.ok.injEq] at h
        obtain ⟨-, hsv⟩ := h
        constructor
        · simp [group_ok, hsf, hcf]
        · rw [← hsv]
          by_cases hl : 1 < (rep :: tail).length
          · rw [if_pos hl]
          · rw [if_neg hl]
            simp only [List.length_cons] at hl ⊢
            omega

theorem process_group_failed_shape (sf : String → CallRes String)
    (cf : EnhancedEmail → String → CallRes String) (g : List Email)
    (errs : List BatchError) (rs : List EmailResult)
    (h : process_group sf cf g = GroupStep.failedGrp errs rs) :
    group_ok sf cf g = false := by
  cases g with
  | nil => simp [process_group] at h
  | cons rep tail =>
    simp only [process_group] at h
    cases hsf : sf (sentiment_text rep) with
    | excBadStr m => rw [hsf] at h; simp at h
    | exc m => simp [group_ok, hsf]
    | ok s =>
      rw [hsf] at h
      dsimp only at h
      cases hcf : cf (enhance rep) s with
      | excBadStr m => rw [hcf] at h; simp at h
      | exc m => simp [group_ok, hsf, hcf]
      | ok c => rw [hcf] at h; simp at h

theorem run_groups_saved (sf : String → CallRes String)
    (cf : EnhancedEmail → String → CallRes String) :
    ∀ (gs : List (String × List Email)) results errors saved,
    (run_groups sf cf gs results errors saved).saved =
      saved + ((attempted_groups sf cf gs).map
        (fun p => if group_ok sf cf p.2 then (p.2.length - 1) * 2 else 0)).sum := by
  intro gs
  induction gs with
  | nil => intro results errors saved; simp [run_groups, attempted_groups]
  | cons p rest ih =>
    intro results errors saved
    obtain ⟨k, g⟩ := p
    cases hpg : process_group sf cf g with
    | ok rs sv =>
      obtain ⟨hok, hsv⟩ := process_group_ok_shape sf cf g rs sv hpg
      simp only [run_groups, hpg, attempted_groups, List.map_cons, List.sum_cons]
      rw [ih]
      rw [if_pos hok, hsv]
      omega
    | failedGrp errs rs =>
      have hok := process_group_failed_shape sf cf g errs rs hpg
      simp only [run_groups, hpg, attempted_groups, List.map_cons, List.sum_cons]
      rw [ih]
      rw [if_neg (by simp [hok])]
      omega
    | fatal msg =>
      simp [run_groups, hpg, attempted_groups]

/-- Claim C4 (amended): api_calls_saved sums (group size - 1) * 2 over only
those exact-match content groups that are attempted before a batch-fatal
escape and whose sentiment and categorization calls both succeed; a failing
group contributes nothing even when it has duplicates. -/
theorem C4_saved_amended (sf : String → CallRes String)
    (cf : EnhancedEmail → String → CallRes String) (emails : List Email) :
    (process_single_batch sf cf emails).2.api_calls_saved =
      ((attempted_groups sf cf (content_groups emails)).map
        (fun p => if group_ok sf cf p.2 then (p.2.length - 1) * 2 else 0)).sum := by
  have hsaved := run_groups_saved sf cf (content_groups emails) [] [] 0
  rw [Nat.zero_add] at hsaved
  simp only [process_single_batch]
  cases hf : (run_groups sf cf (content_groups emails) [] [] 0).fatal with
  | none => dsimp only; exact hsaved
  | some msg => dsimp only; exact hsaved

/-- Counterexample to claim C4 as worded: two identical emails whose
processing raises save 0 API calls, not (2 - 1) * 2. -/
theorem C4_counterexample :
    (process_single_batch sfRaise cfConst [wEmail "a", wEmail "a"]).2.api_calls_saved ≠
      (((content_groups [wEmail "a", wEmail "a"]).map
        (fun p => (p.2.length - 1) * 2)).sum) := by
  decide

/-- Counterexample to claim C6 as worded: under a batch-fatal escape an email
of a previously succeeded group also receives a fallback entry, so the
fallbacks are not limited to emails without a result. -/
theorem C6_counterexample :
    ¬ (∀ r ∈ (process_single_batch sfFatalOnB cfConst [wEmail "a", wEmail "b"]).1.results,
        r.error ≠ none → r.email = wEmail "b") := by
  decide

/-- Claim C6 (amended): when an exception escapes the per-group handler the
batch is marked failed and EVERY email of the batch receives the same
fallback result and one error entry, appended after the partial results
already produced; error_count is then at least total_count, and the other
batches are processed unchanged. -/
theorem C6_batch_fatal_amended (sf : String → CallRes String)
    (cf : EnhancedEmail → String → CallRes String) (emails : List Email) (msg : String)
    (h : (run_groups sf cf (content_groups emails) [] [] 0).fatal = some msg) :
    (process_single_batch sf cf emails).1.processing_status = "failed"
    ∧ (process_single_batch sf cf emails).1.results =
        (run_groups sf cf (content_groups emails) [] [] 0).results ++
          emails.map (fun e => fallback_result e msg)
    ∧ (process_single_batch sf cf emails).2.errors =
        (run_groups sf cf (content_groups emails) [] [] 0).errors ++
          emails.map (fun e => group_error e msg)
    ∧ (process_single_batch sf cf emails).2.total_count ≤
        (process_single_batch sf cf emails).2.error_count
    ∧ (∀ batches₁ batches₂ batch,
        process_batches sf cf (batches₁ ++ batch :: batches₂) =
          process_batches sf cf batches₁ ++
            process_single_batch sf cf batch :: process_batches sf cf batches₂) := by
  simp only [process_single_batch]
  rw [h]
  dsimp only
  refine ⟨rfl, rfl, rfl, ?_, ?_⟩
  · simp
  · intro batches₁ batches₂ batch
    simp [process_batches, process_single_batch]

/-- Concrete instance of amended claim C6: a two-email batch where the second
group's sentiment call raises an exception whose rendering itself fails. -/
theorem C6_witness :
    (process_single_batch sfFatalOnB cfConst [wEmail "b"]).1.processing_status = "failed" :=
  (C6_batch_fatal_amended sfFatalOnB cfConst [wEmail "b"] "kaboom" (by decide)).1


theorem boost_ite (x : ℚ) (c : Prop) [Decidable c] (k : ℚ) :
    (if c then x + k else x) = x + (if c then k else 0) := by
  split_ifs <;> ring

theorem boost_ite₂ (x : ℚ) (c d : Prop) [Decidable c] [Decidable d] (k : ℚ) :
    (if c then (if d then x + k else x) else x) = x + (if c ∧ d then k else 0) := by
  by_cases hc : c
  · by_cases hd : d
    · rw [if_pos hc, if_pos hd, if_pos (And.intro hc hd)]
    · rw [if_pos hc, if_neg hd, if_neg (fun h => hd h.2)]
      ring
  · rw [if_neg hc, if_neg (fun h => hc h.1)]
    ring

theorem ite_ite_and (c d : Prop) [Decidable c] [Decidable d] (k : ℚ) :
    (if c then (if d then k else 0) else 0) = if c ∧ d then k else 0 := by
  by_cases hc : c
  · by_cases hd : d
    · rw [if_pos hc, if_pos hd, if_pos (And.intro hc hd)]
    · rw [if_pos hc, if_neg hd, if_neg (fun h => hd h.2)]
  · rw [if_neg hc, if_neg (fun h => hc h.1)]

theorem calculate_similarity_sum_form (textSim : String → String → ℚ) (email1 email2 : Email) :
    calculate_similarity textSim email1 email2 =
      min
        (textSim
            (strLower (email1.sender ++ " " ++ email1.subject ++ " " ++ strTake email1.content 200))
            (strLower (email2.sender ++ " " ++ email2.subject ++ " " ++ strTake email2.content 200))
          + (if strLower email1.sender = strLower email2.sender then 1/10 else 0)
          + (if (strLower email1.subject ≠ "" ∧ strLower email2.subject ≠ "") ∧
                strTrim (strReplace (strReplace (strReplace (strLower email1.subject) "re:" "")
                    "fwd:" "") "fw:" "") =
                  strTrim (strReplace (strReplace (strReplace (strLower email2.subject) "re:" "")
                    "fwd:" "") "fw:" "")
             then 1/5 else 0)
          + (if (0 < strLen email1.content ∧ 0 < strLen email2.content) ∧
                4/5 < 1 - |((strLen email1.content : ℚ) - (strLen email2.content : ℚ))| /
                  ((max (strLen email1.content) (strLen email2.content) : Nat) : ℚ)
             then 1/10 else 0))
        1 := by
  simp only [calculate_similarity]
  rw [boost_ite, boost_ite₂, boost_ite, boost_ite, ite_ite_and]

theorem spec_similarity_sum_form (textSim : String → String → ℚ) (email1 email2 : Email) :
    spec_similarity textSim email1 email2 =
      min
        (textSim
            (strLower (email1.sender ++ " " ++ email1.subject ++ " " ++ strTake email1.content 200))
            (strLower (email2.sender ++ " " ++ email2.subject ++ " " ++ strTake email2.content 200))
          + (if strLower email1.sender = strLower email2.sender then 1/10 else 0)
          + (if (strLower email1.subject ≠ "" ∧ strLower email2.subject ≠ "") ∧
                strip_leading_markers (strLower email1.subject) =
                  strip_leading_markers (strLower email2.subject)
             then 1/5 else 0)
          + (if (0 < strLen email1.content ∧ 0 < strLen email2.content) ∧
                4/5 < 1 - |((strLen email1.content : ℚ) - (strLen email2.content : ℚ))| /
                  ((max (strLen email1.content) (strLen email2.content) : Nat) : ℚ)
             then 1/10 else 0))
        1 := by
  simp only [spec_similarity]
  rw [boost_ite, boost_ite₂, boost_ite, boost_ite, ite_ite_and]

theorem cex_calculate_value : calculate_similarity textSim0 cexEmailA cexEmailB = 3/10 := by
  have hlen : strLen "abc" = 3 := by decide
  rw [calculate_similarity_sum_form]
  rw [if_neg (show ¬ (strLower cexEmailA.sender = strLower cexEmailB.sender) by decide)]
  rw [if_pos (show (strLower cexEmailA.subject ≠ "" ∧ strLower cexEmailB.subject ≠ "") ∧
        strTrim (strReplace (strReplace (strReplace (strLower cexEmailA.subject) "re:" "")
            "fwd:" "") "fw:" "") =
          strTrim (strReplace (strReplace (strReplace (strLower cexEmailB.subject) "re:" "")
            "fwd:" "") "fw:" "") by decide)]
  rw [if_pos (show (0 < strLen cexEmailA.content ∧ 0 < strLen cexEmailB.content) ∧
        4/5 < 1 - |((strLen cexEmailA.content : ℚ) - (strLen cexEmailB.content : ℚ))| /
          ((max (strLen cexEmailA.content) (strLen cexEmailB.content) : Nat) : ℚ) by
      refine ⟨⟨by decide, by decide⟩, ?_⟩
      show (4:ℚ)/5 < 1 - |((strLen "abc" : ℚ) - (strLen "abc" : ℚ))| /
        ((max (strLen "abc") (strLen "abc") : Nat) : ℚ)
      rw [hlen]
      norm_num)]
  simp only [textSim0]
  norm_num

theorem cex_spec_value : spec_similarity textSim0 cexEmailA cexEmailB = 1/10 := by
  have hlen : strLen "abc" = 3 := by decide
  rw [spec_similarity_sum_form]
  rw [if_neg (show ¬ (strLower cexEmailA.sender = strLower cexEmailB.sender) by decide)]
  rw [if_neg (show ¬ ((strLower cexEmailA.subject ≠ "" ∧ strLower cexEmailB.subject ≠ "") ∧
        strip_leading_markers (strLower cexEmailA.subject) =
          strip_leading_markers (strLower cexEmailB.subject)) by decide)]
  rw [if_pos (show (0 < strLen cexEmailA.content ∧ 0 < strLen cexEmailB.content) ∧
        4/5 < 1 - |((strLen cexEmailA.content : ℚ) - (strLen cexEmailB.content : ℚ))| /
          ((max (strLen cexEmailA.content) (strLen cexEmailB.content) : Nat) : ℚ) by
      refine ⟨⟨by decide, by decide⟩, ?_⟩
      show (4:ℚ)/5 < 1 - |((strLen "abc" : ℚ) - (strLen "abc" : ℚ))| /
        ((max (strLen "abc") (strLen "abc") : Nat) : ℚ)
      rw [hlen]
      norm_num)]
  simp only [textSim0]
  norm_num

/-- Counterexample to claim C5 as worded: the code's replace-everywhere
cleaning turns "store: news" into "sto news", so the similarity differs from
the leading-marker-stripping reading of the spec. -/
theorem C5_counterexample :
    calculate_similarity textSim0 cexEmailA cexEmailB ≠
      spec_similarity textSim0 cexEmailA cexEmailB := by
  rw [cex_calculate_value, cex_spec_value]
  norm_num

theorem scn_similarity_value : calculate_similarity textSim35 scnEmailA scnEmailB = 3/4 := by
  have hlen : strLen "hello world" = 11 := by decide
  rw [calculate_similarity_sum_form]
  rw [if_pos (show strLower scnEmailA.sender = strLower scnEmailB.sender by decide)]
  rw [if_pos (show (strLower scnEmailA.subject ≠ "" ∧ strLower scnEmailB.subject ≠ "") ∧
        strTrim (strReplace (strReplace (strReplace (strLower scnEmailA.subject) "re:" "")
            "fwd:" "") "fw:" "") =
          strTrim (strReplace (strReplace (strReplace (strLower scnEmailB.subject) "re:" "")
            "fwd:" "") "fw:" "") by decide)]
  rw [if_pos (show (0 < strLen scnEmailA.content ∧ 0 < strLen scnEmailB.content) ∧
        4/5 < 1 - |((strLen scnEmailA.content : ℚ) - (strLen scnEmailB.content : ℚ))| /
          ((max (strLen scnEmailA.content) (strLen scnEmailB.content) : Nat) : ℚ) by
      refine ⟨⟨by decide, by decide⟩, ?_⟩
      show (4:ℚ)/5 < 1 - |((strLen "hello world" : ℚ) - (strLen "hello world" : ℚ))| /
        ((max (strLen "hello world") (strLen "hello world") : Nat) : ℚ)
      rw [hlen]
      norm_num)]
  simp only [textSim35]
  norm_num

theorem scn_grouped : group_emails textSim35 (7/10) [scnEmailA, scnEmailB] =
    [[scnEmailA, scnEmailB]] := by
  have hdec : decide ((7:ℚ)/10 ≤ calculate_similarity textSim35 scnEmailA scnEmailB) = true :=
    decide_eq_true (by rw [scn_similarity_value]; norm_num)
  unfold group_emails
  rw [if_neg (show ¬ (([scnEmailA, scnEmailB] : List Email).length ≤ 1) by decide)]
  rw [show ([scnEmailA, scnEmailB] : List Email).enum = [(0, scnEmailA), (1, scnEmailB)] from rfl]
  simp [group_go, hdec]

/-- Claim C5 (amended): the similarity score is the text ratio plus 0.1 for
equal senders plus 0.2 for nonempty subjects equal after removing EVERY
occurrence of "re:", "fwd:" and "fw:" and trimming, plus 0.1 for content
lengths within strictly 20 percent, capped at 1; scenario D scores 0.75 and
the two emails are grouped at threshold 0.7. -/
theorem C5_similarity_amended :
    (∀ (textSim : String → String → ℚ) (email1 email2 : Email),
      calculate_similarity textSim email1 email2 =
        min
          (textSim
              (strLower (email1.sender ++ " " ++ email1.subject ++ " " ++ strTake email1.content 200))
              (strLower (email2.sender ++ " " ++ email2.subject ++ " " ++ strTake email2.content 200))
            + (if strLower email1.sender = strLower email2.sender then 1/10 else 0)
            + (if (strLower email1.subject ≠ "" ∧ strLower email2.subject ≠ "") ∧
                  strTrim (strReplace (strReplace (strReplace (strLower email1.subject) "re:" "")
                      "fwd:" "") "fw:" "") =
                    strTrim (strReplace (strReplace (strReplace (strLower email2.subject) "re:" "")
                      "fwd:" "") "fw:" "")
               then 1/5 else 0)
            + (if (0 < strLen email1.content ∧ 0 < strLen email2.content) ∧
                  4/5 < 1 - |((strLen email1.content : ℚ) - (strLen email2.content : ℚ))| /
                    ((max (strLen email1.content) (strLen email2.content) : Nat) : ℚ)
               then 1/10 else 0))
          1)
    ∧ calculate_similarity textSim35 scnEmailA scnEmailB = 3/4
    ∧ (7:ℚ)/10 ≤ calculate_similarity textSim35 scnEmailA scnEmailB
    ∧ group_emails textSim35 (7/10) [scnEmailA, scnEmailB] = [[scnEmailA, scnEmailB]] :=
  ⟨calculate_similarity_sum_form,
   scn_similarity_value,
   by rw [scn_similarity_value]; norm_num,
   scn_grouped⟩

theorem contains_eq_decide_mem (l : List Nat) (a : Nat) : l.contains a = decide (a ∈ l) := by
  show List.elem a l = decide (a ∈ l)
  by_cases h : a ∈ l
  · rw [List.elem_iff.mpr h, decide_eq_true h]
  · have hc : List.elem a l = false := by
      rw [← Bool.not_eq_true]
      exact fun hc => h (List.elem_iff.mp hc)
    rw [hc, decide_eq_false h]

theorem nodup_fst_unique : ∀ (l : List (Nat × Email)), (l.map Prod.fst).Nodup →
    ∀ (j : Nat) (x y : Email), (j, x) ∈ l → (j, y) ∈ l → x = y := by
  intro l
  induction l with
  | nil => intro _ j x y hx; simp at hx
  | cons p rest ih =>
    intro hnd j x y hx hy
    obtain ⟨i, e⟩ := p
    simp only [List.map_cons, List.nodup_cons] at hnd
    obtain ⟨hp, hrest⟩ := hnd
    rcases List.mem_cons.mp hx with hx1 | hx2
    · rcases List.mem_cons.mp hy with hy1 | hy2
      · have h1 := (Prod.mk.injEq _ _ _ _).mp hx1
        have h2 := (Prod.mk.injEq _ _ _ _).mp hy1
        rw [h1.2, h2.2]
      · exfalso
        have hji : j = i := ((Prod.mk.injEq _ _ _ _).mp hx1).1
        exact hp (hji ▸ List.mem_map.mpr ⟨(j, y), hy2, rfl⟩)
    · rcases List.mem_cons.mp hy with hy1 | hy2
      · exfalso
        have hji : j = i := ((Prod.mk.injEq _ _ _ _).mp hy1).1
        exact hp (hji ▸ List.mem_map.mpr ⟨(j, x), hx2, rfl⟩)
      · exact ih hrest j x y hx2 hy2

theorem group_go_cons (textSim : String → String → ℚ) (threshold : ℚ) (i : Nat) (e : Email)
    (rest : List (Nat × Email)) (used : List Nat) :
    group_go textSim threshold ((i, e) :: rest) used =
      if used.contains i then group_go textSim threshold rest used
      else
        (e :: (rest.filter (fun je =>
            !(used.contains je.1) &&
              decide (threshold ≤ calculate_similarity textSim e je.2))).map
              (fun je => je.2)) ::
          group_go textSim threshold rest
            (used ++ i :: (rest.filter (fun je =>
              !(used.contains je.1) &&
                decide (threshold ≤ calculate_similarity textSim e je.2))).map
                (fun je => je.1)) := rfl

theorem group_go_perm (textSim : String → String → ℚ) (threshold : ℚ) :
    ∀ (ps : List (Nat × Email)) (used : List Nat),
      (ps.map Prod.fst).Nodup →
      ((group_go textSim threshold ps used).flatten).Perm
        ((ps.filter (fun je => !(used.contains je.1))).map (fun je => je.2)) := by
  intro ps
  induction ps with
  | nil => intro used _; simp [group_go]
  | cons p rest ih =>
    intro used hnd
    obtain ⟨i, e⟩ := p
    simp only [List.map_cons, List.nodup_cons] at hnd
    obtain ⟨hi, hrest⟩ := hnd
    by_cases hused : used.contains i = true
    · rw [group_go_cons, if_pos hused, List.filter_cons]
      have hne : (!(used.contains (i, e).1)) = false := by
        show (!(used.contains i)) = false
        rw [hused]
        rfl
      rw [hne]
      rw [if_neg Bool.false_ne_true]
      exact ih used hrest
    · rw [group_go_cons, if_neg hused, List.flatten_cons, List.filter_cons]
      have hcf : used.contains i = false := by
        rw [← Bool.not_eq_true]
        exact hused
      have hpu : (!(used.contains (i, e).1)) = true := by
        show (!(used.contains i)) = true
        rw [hcf]
        rfl
      rw [hpu]
      rw [if_pos rfl]
      simp only [List.map_cons]
      refine (List.perm_cons e).mpr ?_
      have hpoint : ∀ jx ∈ rest,
          (!((used ++ i :: (rest.filter (fun je =>
              !(used.contains je.1) &&
                decide (threshold ≤ calculate_similarity textSim e je.2))).map
                (fun je => je.1)).contains jx.1)) =
            ((!(used.contains jx.1)) &&
              !(decide (threshold ≤ calculate_similarity textSim e jx.2))) := by
        intro jx hjx
        obtain ⟨j, x⟩ := jx
        have hj : j ∈ rest.map Prod.fst := List.mem_map.mpr ⟨(j, x), hjx, rfl⟩
        have hji : j ≠ i := fun h => hi (h ▸ hj)
        have hsim : j ∈ (rest.filter (fun je =>
            !(used.contains je.1) &&
              decide (threshold ≤ calculate_similarity textSim e je.2))).map
              (fun je => je.1) ↔
            (j ∉ used ∧ decide (threshold ≤ calculate_similarity textSim e x) = true) := by
          constructor
          · intro hmem
            obtain ⟨⟨j2, y⟩, hy, hj2⟩ := List.mem_map.mp hmem
            have hj2e : j2 = j := hj2
            rw [hj2e] at hy
            obtain ⟨hyrest, hfy⟩ := List.mem_filter.mp hy
            have hyx : y = x := nodup_fst_unique rest hrest j y x hyrest hjx
            rw [hyx] at hfy
            have hfy2 : (!(used.contains j) &&
                decide (threshold ≤ calculate_similarity textSim e x)) = true := hfy
            simp only [Bool.and_eq_true, Bool.not_eq_true] at hfy2
            refine ⟨fun hm => ?_, hfy2.2⟩
            rw [contains_eq_decide_mem, decide_eq_true hm] at hfy2
            exact absurd hfy2.1 (by decide)
          · intro ⟨hnu, hq⟩
            refine List.mem_map.mpr ⟨(j, x), List.mem_filter.mpr ⟨hjx, ?_⟩, rfl⟩
            show (!(used.contains j) &&
              decide (threshold ≤ calculate_similarity textSim e x)) = true
            have hcj : used.contains j = false := by
              rw [contains_eq_decide_mem]
              exact decide_eq_false hnu
            rw [hcj, hq]
            rfl
        show (!((used ++ i :: (rest.filter (fun je =>
            !(used.contains je.1) &&
              decide (threshold ≤ calculate_similarity textSim e je.2))).map
              (fun je => je.1)).contains j)) =
          ((!(used.contains j)) && !(decide (threshold ≤ calculate_similarity textSim e x)))
        rw [contains_eq_decide_mem, contains_eq_decide_mem]
        by_cases hu : j ∈ used
        · have h1 : j ∈ used ++ i :: (rest.filter (fun je =>
              !(used.contains je.1) &&
                decide (threshold ≤ calculate_similarity textSim e je.2))).map
                (fun je => je.1) := List.mem_append.mpr (Or.inl hu)
          rw [decide_eq_true h1, decide_eq_true hu]
          rfl
        · by_cases hqv : decide (threshold ≤ calculate_similarity textSim e x) = true
          · have h1 : j ∈ used ++ i :: (rest.filter (fun je =>
                !(used.contains je.1) &&
                  decide (threshold ≤ calculate_similarity textSim e je.2))).map
                  (fun je => je.1) :=
              List.mem_append.mpr (Or.inr (List.mem_cons.mpr (Or.inr (hsim.mpr ⟨hu, hqv⟩))))
            rw [decide_eq_true h1, decide_eq_false hu, hqv]
            rfl
          · have h1 : j ∉ used ++ i :: (rest.filter (fun je =>
                !(used.contains je.1) &&
                  decide (threshold ≤ calculate_similarity textSim e je.2))).map
                  (fun je => je.1) := by
              intro hmem
              rcases List.mem_append.mp hmem with hm | hm
              · exact hu hm
              · rcases List.mem_cons.mp hm with hm2 | hm2
                · exact hji hm2
                · exact hqv (hsim.mp hm2).2
            have hqf : decide (threshold ≤ calculate_similarity textSim e x) = false := by
              rw [← Bool.not_eq_true]
              exact hqv
            rw [decide_eq_false h1, decide_eq_false hu, hqf]
            rfl
      have h1 := ih (used ++ i :: (rest.filter (fun je =>
          !(used.contains je.1) &&
            decide (threshold ≤ calculate_similarity textSim e je.2))).map
            (fun je => je.1)) hrest
      rw [List.filter_congr hpoint] at h1
      refine List.Perm.trans (List.Perm.append_left _ h1) ?_
      rw [← List.map_append]
      refine List.Perm.map _ ?_
      have hsplit := List.filter_append_perm
        (fun je => decide (threshold ≤ calculate_similarity textSim e je.2))
        (rest.filter (fun je => !(used.contains je.1)))
      rw [List.filter_filter, List.filter_filter] at hsplit
      have e1 : rest.filter (fun a =>
            decide (threshold ≤ calculate_similarity textSim e a.2) && !(used.contains a.1)) =
          rest.filter (fun je =>
            !(used.contains je.1) && decide (threshold ≤ calculate_similarity textSim e je.2)) :=
        List.filter_congr (fun x _ => Bool.and_comm _ _)
      have e2 : rest.filter (fun a =>
            !(decide (threshold ≤ calculate_similarity textSim e a.2)) && !(used.contains a.1)) =
          rest.filter (fun x =>
            !(used.contains x.1) && !(decide (threshold ≤ calculate_similarity textSim e x.2))) :=
        List.filter_congr (fun x _ => Bool.and_comm _ _)
      rw [e1, e2] at hsplit
      exact hsplit

theorem group_go_ne_nil (textSim : String → String → ℚ) (threshold : ℚ) :
    ∀ (ps : List (Nat × Email)) (used : List Nat) (g : List Email),
      g ∈ group_go textSim threshold ps used → g ≠ [] := by
  intro ps
  induction ps with
  | nil => intro used g hg; simp [group_go] at hg
  | cons p rest ih =>
    intro used g hg
    obtain ⟨i, e⟩ := p
    rw [group_go_cons] at hg
    by_cases hused : used.contains i = true
    · rw [if_pos hused] at hg
      exact ih used g hg
    · rw [if_neg hused] at hg
      rcases List.mem_cons.mp hg with hg1 | hg2
      · rw [hg1]
        exact List.cons_ne_nil _ _
      · exact ih _ g hg2

/-- Claim C9: group_emails partitions its input: the concatenation of the
produced groups is a permutation of the input list (every email appears in
exactly one group, multiplicity included) and no produced group is empty,
for every similarity function and threshold. -/
theorem C9_group_partition (textSim : String → String → ℚ) (threshold : ℚ)
    (emails : List Email) :
    ((group_emails textSim threshold emails).flatten).Perm emails
    ∧ ∀ g ∈ group_emails textSim threshold emails, g ≠ [] := by
  constructor
  · unfold group_emails
    by_cases hlen : emails.length ≤ 1
    · rw [if_pos hlen]
      cases emails with
      | nil => simp
      | cons e tail =>
        cases tail with
        | nil => simp
        | cons f tf => simp at hlen
    · rw [if_neg hlen]
      have hnd : (emails.enum.map Prod.fst).Nodup := by
        rw [List.enum_map_fst]
        exact List.nodup_range _
      have h := group_go_perm textSim threshold emails.enum [] hnd
      have hfilter : emails.enum.filter (fun je => !(([] : List Nat).contains je.1)) =
          emails.enum := by
        apply List.filter_eq_self.mpr
        intro a _
        rfl
      rw [hfilter] at h
      have hsnd : emails.enum.map (fun je => je.2) = emails := List.enum_map_snd emails
      rwa [hsnd] at h
  · intro g hg
    unfold group_emails at hg
    by_cases hlen : emails.length ≤ 1
    · rw [if_pos hlen] at hg
      by_cases hemp : emails.isEmpty
      · rw [if_pos hemp] at hg
        simp at hg
      · rw [if_neg hemp] at hg
        rcases List.mem_cons.mp hg with h1 | h2
        · rw [h1]
          intro hnil
          rw [hnil] at hemp
          exact hemp rfl
        · simp at h2
    · rw [if_neg hlen] at hg
      exact group_go_ne_nil textSim threshold emails.enum [] g hg

/-- Concrete instance of claim C9 on scenario D's two emails. -/
theorem C9_witness :
    (((group_emails textSim0 0 [wEmail "w"]).flatten).Perm [wEmail "w"])
    ∧ [wEmail "w"] ≠ ([] : List Email) :=
  ⟨(C9_group_partition textSim0 0 [wEmail "w"]).1,
   (C9_group_partition textSim0 0 [wEmail "w"]).2 [wEmail "w"]
     (by rw [show group_emails textSim0 0 [wEmail "w"] = [[wEmail "w"]] from rfl]; exact List.mem_singleton.mpr rfl)⟩


theorem create_go_cons (bs : Nat) (group : List Email) (groups : List (List Email))
    (current : List Email) (batches : List (List Email)) :
    create_go bs (group :: groups) current batches =
      (let closes := !current.isEmpty && decide (bs < current.length + group.length)
       let batches₂ := if closes then batches ++ [current] else batches
       let current₂ := (if closes then [] else current) ++ group
       if bs ≤ current₂.length then create_go bs groups [] (batches₂ ++ [current₂])
       else create_go bs groups current₂ batches₂) := rfl

theorem seg_go_cons (bs : Nat) (group : List Email) (groups : List (List Email))
    (cur : List (List Email)) (acc : List (List (List Email))) :
    seg_go bs (group :: groups) cur acc =
      (let closes := !cur.flatten.isEmpty && decide (bs < cur.flatten.length + group.length)
       let acc₂ := if closes then acc ++ [cur] else acc
       let cur₂ := (if closes then [] else cur) ++ [group]
       if bs ≤ cur₂.flatten.length then seg_go bs groups [] (acc₂ ++ [cur₂])
       else seg_go bs groups cur₂ acc₂) := rfl

theorem flatten_snoc_group (cur : List (List Email)) (group : List Email) :
    (cur ++ [group]).flatten = cur.flatten ++ group := by
  rw [List.flatten_append]
  simp

theorem seg_go_spec (bs : Nat) :
    ∀ (groups : List (List Email)) (cur : List (List Email)) (acc : List (List (List Email))),
      create_go bs groups cur.flatten (acc.map List.flatten) =
        (seg_go bs groups cur acc).map List.flatten := by
  intro groups
  induction groups with
  | nil =>
    intro cur acc
    rw [show create_go bs [] cur.flatten (acc.map List.flatten) =
        (if cur.flatten.isEmpty then acc.map List.flatten
         else acc.map List.flatten ++ [cur.flatten]) from rfl]
    rw [show seg_go bs [] cur acc = (if cur.flatten.isEmpty then acc else acc ++ [cur]) from rfl]
    by_cases he : cur.flatten.isEmpty
    · rw [if_pos he, if_pos he]
    · rw [if_neg he, if_neg he, List.map_append]
      rfl
  | cons group groups ih =>
    intro cur acc
    rw [create_go_cons, seg_go_cons]
    dsimp only
    by_cases hclose :
        (!cur.flatten.isEmpty && decide (bs < cur.flatten.length + group.length)) = true
    · rw [hclose]
      simp only [if_true]
      have hcur : (([] : List (List Email)) ++ [group]).flatten = ([] : List Email) ++ group := by
        simp
      by_cases hcap : bs ≤ (([] : List (List Email)) ++ [group]).flatten.length
      · rw [if_pos hcap, if_pos (by rwa [← hcur])]
        have := ih [] ((acc ++ [cur]) ++ [[] ++ [group]])
        simp only [List.map_append, List.map_cons, List.map_nil] at this ⊢
        convert this using 3
        · simp
      · rw [if_neg hcap, if_neg (by rwa [← hcur])]
        have := ih ([] ++ [group]) (acc ++ [cur])
        simp only [List.map_append, List.map_cons, List.map_nil] at this ⊢
        convert this using 2
        · simp
    · have hclose₂ :
          (!cur.flatten.isEmpty && decide (bs < cur.flatten.length + group.length)) = false := by
        rw [← Bool.not_eq_true]
        exact hclose
      rw [hclose₂]
      simp only [Bool.false_eq_true, if_false]
      have hcur : (cur ++ [group]).flatten = cur.flatten ++ group := flatten_snoc_group cur group
      by_cases hcap : bs ≤ (cur ++ [group]).flatten.length
      · rw [if_pos hcap, if_pos (by rwa [← hcur])]
        have := ih [] (acc ++ [cur ++ [group]])
        simp only [List.map_append, List.map_cons, List.map_nil] at this ⊢
        convert this using 3
        · simp [hcur]
      · rw [if_neg hcap, if_neg (by rwa [← hcur])]
        have := ih (cur ++ [group]) acc
        rwa [hcur] at this

theorem flatten_ne_nil_of_mem_ne {cur : List (List Email)} (hne : ∀ x ∈ cur, x ≠ [])
    (hcur : cur ≠ []) : cur.flatten.isEmpty = false := by
  cases hfl : cur.flatten.isEmpty
  · rfl
  · exfalso
    have hnil : cur.flatten = [] := by
      cases hfl2 : cur.flatten with
      | nil => rfl
      | cons a l => rw [hfl2] at hfl; simp at hfl
    have := List.flatten_eq_nil_iff.mp hnil
    cases cur with
    | nil => exact hcur rfl
    | cons c cs => exact hne c (List.mem_cons_self c cs) (this c (List.mem_cons_self c cs))

theorem seg_go_flatten (bs : Nat) :
    ∀ (groups : List (List Email)) (cur : List (List Email)) (acc : List (List (List Email))),
      (∀ x ∈ cur, x ≠ []) → (∀ g ∈ groups, g ≠ []) →
      (seg_go bs groups cur acc).flatten = acc.flatten ++ cur ++ groups := by
  intro groups
  induction groups with
  | nil =>
    intro cur acc hcur _
    rw [show seg_go bs [] cur acc = (if cur.flatten.isEmpty then acc else acc ++ [cur]) from rfl]
    by_cases he : cur.flatten.isEmpty
    · rw [if_pos he]
      have hcurnil : cur = [] := by
        by_contra hc
        rw [flatten_ne_nil_of_mem_ne hcur hc] at he
        exact absurd he (by decide)
      rw [hcurnil]
      simp
    · rw [if_neg he]
      simp
  | cons group groups ih =>
    intro cur acc hcur hgs
    have hgroup : group ≠ [] := hgs group (List.mem_cons_self _ _)
    have hgs₂ : ∀ g ∈ groups, g ≠ [] := fun g hg => hgs g (List.mem_cons_of_mem _ hg)
    rw [seg_go_cons]
    dsimp only
    by_cases hclose :
        (!cur.flatten.isEmpty && decide (bs < cur.flatten.length + group.length)) = true
    · rw [hclose]
      simp only [if_true]
      by_cases hcap : bs ≤ (([] : List (List Email)) ++ [group]).flatten.length
      · rw [if_pos hcap]
        rw [ih [] ((acc ++ [cur]) ++ [[] ++ [group]]) (by intro x hx; simp at hx) hgs₂]
        simp
      · rw [if_neg hcap]
        rw [ih ([] ++ [group]) (acc ++ [cur])
          (by intro x hx; simp at hx; rw [hx]; exact hgroup) hgs₂]
        simp
    · have hclose₂ :
          (!cur.flatten.isEmpty && decide (bs < cur.flatten.length + group.length)) = false := by
        rw [← Bool.not_eq_true]
        exact hclose
      rw [hclose₂]
      simp only [Bool.false_eq_true, if_false]
      by_cases hcap : bs ≤ (cur ++ [group]).flatten.length
      · rw [if_pos hcap]
        rw [ih [] (acc ++ [cur ++ [group]]) (by intro x hx; simp at hx) hgs₂]
        simp
      · rw [if_neg hcap]
        rw [ih (cur ++ [group]) acc
          (by
            intro x hx
            rcases List.mem_append.mp hx with hm | hm
            · exact hcur x hm
            · rw [List.mem_singleton.mp hm]; exact hgroup) hgs₂]
        simp

theorem seg_go_ne_nil (bs : Nat) :
    ∀ (groups : List (List Email)) (cur : List (List Email)) (acc : List (List (List Email))),
      (∀ s ∈ acc, s ≠ []) →
      ∀ s ∈ seg_go bs groups cur acc, s ≠ [] := by
  intro groups
  induction groups with
  | nil =>
    intro cur acc hacc s hs
    rw [show seg_go bs [] cur acc = (if cur.flatten.isEmpty then acc else acc ++ [cur]) from rfl]
      at hs
    by_cases he : cur.flatten.isEmpty
    · rw [if_pos he] at hs
      exact hacc s hs
    · rw [if_neg he] at hs
      rcases List.mem_append.mp hs with hm | hm
      · exact hacc s hm
      · rw [List.mem_singleton.mp hm]
        intro hnil
        rw [hnil] at he
        exact he (by decide)
  | cons group groups ih =>
    intro cur acc hacc s hs
    rw [seg_go_cons] at hs
    dsimp only at hs
    by_cases hclose :
        (!cur.flatten.isEmpty && decide (bs < cur.flatten.length + group.length)) = true
    · rw [hclose] at hs
      simp only [if_true] at hs
      have hcurne : cur ≠ [] := by
        intro hnil
        rw [hnil] at hclose
        simp at hclose
      have hacc₂ : ∀ t ∈ acc ++ [cur], t ≠ [] := by
        intro t ht
        rcases List.mem_append.mp ht with hm | hm
        · exact hacc t hm
        · rw [List.mem_singleton.mp hm]; exact hcurne
      by_cases hcap : bs ≤ (([] : List (List Email)) ++ [group]).flatten.length
      · rw [if_pos hcap] at hs
        refine ih [] ((acc ++ [cur]) ++ [[] ++ [group]]) ?_ s hs
        intro t ht
        rcases List.mem_append.mp ht with hm | hm
        · exact hacc₂ t hm
        · rw [List.mem_singleton.mp hm]; simp
      · rw [if_neg hcap] at hs
        exact ih ([] ++ [group]) (acc ++ [cur]) hacc₂ s hs
    · have hclose₂ :
          (!cur.flatten.isEmpty && decide (bs < cur.flatten.length + group.length)) = false := by
        rw [← Bool.not_eq_true]
        exact hclose
      rw [hclose₂] at hs
      simp only [Bool.false_eq_true, if_false] at hs
      by_cases hcap : bs ≤ (cur ++ [group]).flatten.length
      · rw [if_pos hcap] at hs
        refine ih [] (acc ++ [cur ++ [group]]) ?_ s hs
        intro t ht
        rcases List.mem_append.mp ht with hm | hm
        · exact hacc t hm
        · rw [List.mem_singleton.mp hm]; simp
      · rw [if_neg hcap] at hs
        exact ih (cur ++ [group]) acc hacc s hs

theorem seg_go_mem_acc (bs : Nat) :
    ∀ (groups : List (List Email)) (cur : List (List Email)) (acc : List (List (List Email)))
      (s : List (List Email)), s ∈ acc → s ∈ seg_go bs groups cur acc := by
  intro groups
  induction groups with
  | nil =>
    intro cur acc s hs
    rw [show seg_go bs [] cur acc = (if cur.flatten.isEmpty then acc else acc ++ [cur]) from rfl]
    by_cases he : cur.flatten.isEmpty
    · rw [if_pos he]; exact hs
    · rw [if_neg he]; exact List.mem_append.mpr (Or.inl hs)
  | cons group groups ih =>
    intro cur acc s hs
    rw [seg_go_cons]
    dsimp only
    by_cases hclose :
        (!cur.flatten.isEmpty && decide (bs < cur.flatten.length + group.length)) = true
    · rw [hclose]
      simp only [if_true]
      by_cases hcap : bs ≤ (([] : List (List Email)) ++ [group]).flatten.length
      · rw [if_pos hcap]
        exact ih [] _ s (List.mem_append.mpr (Or.inl (List.mem_append.mpr (Or.inl hs))))
      · rw [if_neg hcap]
        exact ih ([] ++ [group]) _ s (List.mem_append.mpr (Or.inl hs))
    · have hclose₂ :
          (!cur.flatten.isEmpty && decide (bs < cur.flatten.length + group.length)) = false := by
        rw [← Bool.not_eq_true]
        exact hclose
      rw [hclose₂]
      simp only [Bool.false_eq_true, if_false]
      by_cases hcap : bs ≤ (cur ++ [group]).flatten.length
      · rw [if_pos hcap]
        exact ih [] _ s (List.mem_append.mpr (Or.inl hs))
      · rw [if_neg hcap]
        exact ih (cur ++ [group]) acc s hs

theorem seg_go_oversized (bs : Nat) :
    ∀ (groups : List (List Email)) (cur : List (List Email)) (acc : List (List (List Email))),
      (∀ x ∈ cur, x ≠ []) → (∀ g ∈ groups, g ≠ []) →
      ∀ g ∈ groups, bs < g.length → [g] ∈ seg_go bs groups cur acc := by
  intro groups
  induction groups with
  | nil => intro cur acc _ _ g hg; simp at hg
  | cons group groups ih =>
    intro cur acc hcur hgs g hg hover
    have hgs₂ : ∀ x ∈ groups, x ≠ [] := fun x hx => hgs x (List.mem_cons_of_mem _ hx)
    rcases List.mem_cons.mp hg with hghead | hgtail
    · subst hghead
      rw [seg_go_cons]
      dsimp only
      by_cases hcurnil : cur = []
      · subst hcurnil
        have hclose :
            (!(([] : List (List Email)).flatten.isEmpty) &&
              decide (bs < ([] : List (List Email)).flatten.length + g.length)) = false := by
          simp
        rw [hclose]
        simp only [Bool.false_eq_true, if_false]
        have hcap : bs ≤ (([] : List (List Email)) ++ [g]).flatten.length := by
          simp
          omega
        rw [if_pos hcap]
        exact seg_go_mem_acc bs groups [] _ [g]
          (List.mem_append.mpr (Or.inr (List.mem_singleton.mpr rfl)))
      · have hfl : cur.flatten.isEmpty = false := flatten_ne_nil_of_mem_ne hcur hcurnil
        have hlen : 0 < cur.flatten.length := by
          cases hc : cur.flatten with
          | nil => rw [hc] at hfl; simp at hfl
          | cons a l => simp [hc]
        have hclose :
            (!cur.flatten.isEmpty &&
              decide (bs < cur.flatten.length + g.length)) = true := by
          rw [hfl]
          rw [decide_eq_true (by omega)]
          rfl
        rw [hclose]
        simp only [if_true]
        have hcap : bs ≤ (([] : List (List Email)) ++ [g]).flatten.length := by
          simp
          omega
        rw [if_pos hcap]
        exact seg_go_mem_acc bs groups [] _ [g]
          (List.mem_append.mpr (Or.inr (List.mem_singleton.mpr rfl)))
    · rw [seg_go_cons]
      dsimp only
      have hgroupne : group ≠ [] := hgs group (List.mem_cons_self _ _)
      by_cases hclose :
          (!cur.flatten.isEmpty && decide (bs < cur.flatten.length + group.length)) = true
      · rw [hclose]
        simp only [if_true]
        by_cases hcap : bs ≤ (([] : List (List Email)) ++ [group]).flatten.length
        · rw [if_pos hcap]
          exact ih [] _ (by intro x hx; simp at hx) hgs₂ g hgtail hover
        · rw [if_neg hcap]
          exact ih ([] ++ [group]) _
            (by intro x hx; simp at hx; rw [hx]; exact hgroupne) hgs₂ g hgtail hover
      · have hclose₂ :
            (!cur.flatten.isEmpty && decide (bs < cur.flatten.length + group.length)) = false := by
          rw [← Bool.not_eq_true]
          exact hclose
        rw [hclose₂]
        simp only [Bool.false_eq_true, if_false]
        by_cases hcap : bs ≤ (cur ++ [group]).flatten.length
        · rw [if_pos hcap]
          exact ih [] _ (by intro x hx; simp at hx) hgs₂ g hgtail hover
        · rw [if_neg hcap]
          refine ih (cur ++ [group]) acc ?_ hgs₂ g hgtail hover
          intro x hx
          rcases List.mem_append.mp hx with hm | hm
          · exact hcur x hm
          · rw [List.mem_singleton.mp hm]; exact hgroupne

/-- Claim C8: _create_batches never splits a similarity group: the batches
are exactly the concatenations of consecutive whole groups (a segmentation
of the group list), every batch is nonempty, a group at least as large as
the batch size always stands in a batch of its own, and an arriving group
that would overflow first closes the current batch. -/
theorem C8_whole_groups (bs : Nat) (groups : List (List Email))
    (hne : ∀ g ∈ groups, g ≠ []) :
    (∀ (group : List Email) (rest : List (List Email)) (current : List Email)
        (batches : List (List Email)), current ≠ [] → bs < current.length + group.length →
        create_go bs (group :: rest) current batches =
          create_go bs (group :: rest) [] (batches ++ [current]))
    ∧ ∃ segs : List (List (List Email)),
        segs.flatten = groups ∧ (∀ s ∈ segs, s ≠ []) ∧
        build_batches bs groups = segs.map List.flatten ∧
        (∀ g ∈ groups, bs < g.length → [g] ∈ segs) := by
  constructor
  · intro group rest current batches hnecur hover
    have hemp : current.isEmpty = false := by
      cases current with
      | nil => exact absurd rfl hnecur
      | cons a l => rfl
    rw [create_go_cons, create_go_cons]
    dsimp only
    rw [hemp, decide_eq_true hover]
    rfl
  · refine ⟨seg_go bs groups [] [], ?_, ?_, ?_, ?_⟩
    · have := seg_go_flatten bs groups [] [] (by intro x hx; simp at hx) hne
      simpa using this
    · exact seg_go_ne_nil bs groups [] [] (by intro s hs; simp at hs)
    · have := seg_go_spec bs groups [] []
      simpa [build_batches] using this
    · exact seg_go_oversized bs groups [] [] (by intro x hx; simp at hx) hne

/-- Concrete instance of claim C8: batch size 2 with group sizes 1, 3, 1. -/
theorem C8_witness :
    (create_go 2 ([[wEmail "b"], [wEmail "c"]] : List (List Email)) [wEmail "a", wEmail "x"] [] =
      create_go 2 ([[wEmail "b"], [wEmail "c"]] : List (List Email)) []
        ([] ++ [[wEmail "a", wEmail "x"]]))
    ∧ ∃ segs : List (List (List Email)),
        segs.flatten = [[wEmail "a"], [wEmail "b", wEmail "c", wEmail "d"], [wEmail "e"]]
        ∧ (∀ s ∈ segs, s ≠ [])
        ∧ build_batches 2 [[wEmail "a"], [wEmail "b", wEmail "c", wEmail "d"], [wEmail "e"]] =
            segs.map List.flatten
        ∧ (∀ g ∈ ([[wEmail "a"], [wEmail "b", wEmail "c", wEmail "d"], [wEmail "e"]] :
              List (List Email)), 2 < g.length → [g] ∈ segs) :=
  ⟨(C8_whole_groups 2 [[wEmail "b"], [wEmail "c"]] (by decide)).1 [wEmail "b"] [[wEmail "c"]]
      [wEmail "a", wEmail "x"] [] (by decide) (by decide),
   (C8_whole_groups 2 [[wEmail "a"], [wEmail "b", wEmail "c", wEmail "d"], [wEmail "e"]]
      (by decide)).2⟩
